import Mathlib

/-!
# Verification of the hotorslop deck-assembly pipeline

Shallow embedding of `src/services/openfake.ts` (the current multi-source
variant: synthetic OpenFake, Nano-Banana, Rapidata, COCO real, OpenFake real)
together with `fetchQuickDeck` and the shared per-source cache.

Modelling conventions:
* JS strings are Lean `String`s; missing (`undefined`/`null`) fields are
  `Option`; the JS falsiness test `!s` on an optional string is `strFalsy`
  (absent or empty).
* Network calls are an oracle: each source's `/rows` endpoint is a function
  from a per-endpoint call counter to `Except String` of the returned rows
  (the offset/limit arithmetic of the source only chooses *where* the random
  batch is sampled, which the oracle absorbs; the hardcoded row counts mean
  the `info` endpoints are never queried in this variant).
* `Math.random()` is an oracle as well: a stream `js` of Fisher–Yates swap
  choices (taken mod the live range, mirroring `Math.floor(Math.random()*n)`
  which always lands in `[0, n)`), and a `pick` function producing the set of
  distinct indices the `while (indices.size < count)` loop of `drawFromCache`
  terminates with.
* The five concurrent draws of `Promise.all` touch pairwise disjoint caches,
  so they are modelled by sequential execution in program order; a rejection
  of any of them rejects the whole call in both models.
* The float splits `Math.ceil(x * 0.33)` / `Math.ceil(x * 0.6)` are modelled
  by exact rational ceilings `⌈33x/100⌉` / `⌈6x/10⌉`.
* Thrown `Error(msg)` is `Except.error msg`; all embedded functions are total.
-/

namespace HotOrSlop

/-! ## String helpers (structural, so that witnesses evaluate by `decide`) -/

/-- Character-list prefix test, used to model `String.prototype.startsWith`. -/
def charsLe : List Char → List Char → Bool
  | [], _ => true
  | _ :: _, [] => false
  | a :: as, b :: bs => a == b && charsLe as bs

/-- Model of JS `s.startsWith(p)`. -/
def strBeginsWith (s p : String) : Bool := charsLe p.data s.data

/-- Model of JS `s.endsWith(p)`. -/
def strEndsOn (s p : String) : Bool := charsLe p.data.reverse s.data.reverse

/-- ASCII whitespace test (model of the characters `trim` removes). -/
def isWsp (c : Char) : Bool := c == ' ' || c == '\t' || c == '\n' || c == '\r'

/-- Model of JS `s.trim()` (ASCII whitespace). -/
def strTrim (s : String) : String :=
  String.mk (((s.data.dropWhile isWsp).reverse.dropWhile isWsp).reverse)

/-- Model of JS `s.toLowerCase()` (ASCII case folding). -/
def strLow (s : String) : String := String.mk (s.data.map Char.toLower)

/-- JS falsiness of an optional string: absent or empty. -/
def strFalsy : Option String → Bool
  | none => true
  | some v => v == ""

/-- Split a character list at a separator, mirroring `String.prototype.split`. -/
def splitChar (sep : Char) : List Char → List (List Char)
  | [] => [[]]
  | c :: cs =>
    let r := splitChar sep cs
    if c == sep then [] :: r
    else
      match r with
      | h :: t => (c :: h) :: t
      | [] => [[c]]

/-! ## Constants of `openfake.ts` -/

def SYNTHETIC_SPLIT : String := "test"
def SYNTHETIC_DATASET_CARD_URL : String :=
  "https://huggingface.co/datasets/Anonymous460/OpenFake"
def NANOBANANA_DATASET_CARD_URL : String :=
  "https://huggingface.co/datasets/bitmind/nano-banana"
def NANOBANANA_MODEL_NAME : String := "gemini-2.5-flash"
def REAL_SPLIT : String := "val"
def REAL_DATASET_CARD_URL : String :=
  "https://huggingface.co/datasets/lmms-lab/COCO-Caption2017"

/-- The four Rapidata dataset ids (their hardcoded row counts only steer the
random offsets, which the fetch oracle absorbs). -/
def RAPIDATA_DATASET_IDS : List String :=
  [ "Rapidata/Flux-2-pro_t2i_human_preference"
  , "Rapidata/Seedream-3_t2i_human_preference"
  , "Rapidata/Imagen-4-ultra-24-7-25_t2i_human_preference"
  , "Rapidata/Recraft-v3-24-7-25_t2i_human_preference" ]

def RAPIDATA_CREDIT : String := "Rapidata benchmark · CDLA-Permissive-2.0"

def syntheticDefaultCredit : String := "OpenFake dataset · CC BY-SA 4.0"
def realDefaultCredit : String := "COCO-Caption2017 dataset · CC BY 4.0"
def nanoBananaDefaultCredit : String := "Nano-Banana dataset · MIT"
def openFakeRealDefaultCredit : String := "OpenFake dataset (real) · CC BY-SA 4.0"

def ALLOWED_IMAGE_HOSTS : List String :=
  [ "huggingface.co"
  , "datasets-server.huggingface.co"
  , "cdn-lfs.hf.co"
  , "cdn-lfs-us-1.hf.co"
  , "cdn-lfs.huggingface.co" ]

def ALLOWED_MODEL_PREFIXES : List String := ["real", "imagen", "gpt", "flux"]

def EXCLUDED_MODELS : List String :=
  [ "gpt-image-1"
  , "flux.1-schnell"
  , "imagen-3.0-002"
  , "imagen-4.0"
  , "flux.1-dev" ]

def MAX_CACHE_SIZE : Nat := 600
def MAX_FETCH_ATTEMPTS : Nat := 2

/-- Message of the error thrown when the assembled pool is empty
(`NoImagesAvailable` in the spec's taxonomy). -/
def noImagesMsg : String := "Could not fetch images from datasets"

/-! ## URL validation (`isValidImageUrl`) -/

/-- Extract the hostname of an `https` URL.  Simplified model of
`new URL(url)`: the scheme must literally be `https://` and the host runs to
the first `/`, `:`, `?` or `#`; a URL that is not https or has an empty host
yields `none` (the `catch` branch / the `protocol !== 'https:'` test). -/
def hostOfHttpsUrl (url : String) : Option String :=
  if strBeginsWith url "https://" then
    let host := String.mk ((url.data.drop 8).takeWhile
      (fun c => !(c == '/' || c == ':' || c == '?' || c == '#')))
    if host == "" then none else some host
  else none

/-- `isValidImageUrl`: https plus an allow-listed host (exact or dot-suffix). -/
def isValidImageUrl (url : String) : Bool :=
  match hostOfHttpsUrl url with
  | none => false
  | some host =>
    ALLOWED_IMAGE_HOSTS.any (fun h => host == h || strEndsOn host ("." ++ h))

/-! ## Card and raw-row shapes -/

/-- `HotOrSlopImage`.  The unused optional `rounds` field (never set by any
builder) is omitted. `answer` ranges over `"ai"`/`"real"`, `label` over
`"fake"`/`"real"`. -/
structure Card where
  id : String
  src : String
  answer : String
  label : String
  prompt : String
  model : Option String
  credit : String
  datasetUrl : String
deriving DecidableEq, Repr

/-- A row of `RowsResponse` (OpenFake synthetic dataset), flattened:
`imageSrc` is `row.image?.src`. -/
structure SynthRow where
  imageSrc : Option String
  label : Option String
  prompt : Option String
  model : Option String
deriving DecidableEq, Repr

/-- A row of `CocoRowsResponse`. -/
structure CocoRow where
  imageSrc : Option String
  answer : Option (List String)
  question : Option String
  file_name : Option String
deriving DecidableEq, Repr

/-- A row of `NanoBananaRowsResponse` (only the fields the builder reads). -/
structure NanoRow where
  imageSrc : Option String
  idNum : Option Int
deriving DecidableEq, Repr

/-- A row of `RapidataRowsResponse`, flattened. -/
structure RapidataRow where
  prompt : Option String
  image1Src : Option String
  image2Src : Option String
  model1 : Option String
  model2 : Option String
deriving DecidableEq, Repr

/-! ## Row validation (the four `build*Image` functions) -/

/-- `labelToAnswerMap` lookup. -/
def labelToAnswer (label : String) : Option String :=
  if label = "fake" then some "ai"
  else if label = "real" then some "real"
  else none

/-- `normalisePrompt` (current variant: empty-after-trim also falls back). -/
def normalisePrompt (value : Option String) : String :=
  if strFalsy value then "Description unavailable — see dataset cards for context."
  else
    let trimmed := strTrim (value.getD "")
    if trimmed == "" then "Description unavailable — see dataset cards for context."
    else trimmed

/-- `buildSyntheticImage`: validate an OpenFake row into a fake card. -/
def buildSyntheticImage (rowIdx : Nat) (raw : SynthRow) : Option Card :=
  if strFalsy raw.imageSrc || strFalsy raw.label then none
  else
    let src := raw.imageSrc.getD ""
    let label := raw.label.getD ""
    if ¬ isValidImageUrl src then none
    else if label ≠ "fake" then none
    else
      match labelToAnswer label with
      | none => none
      | some answer =>
        let prompt := normalisePrompt raw.prompt
        if strFalsy raw.model then none
        else
          let rawModel := raw.model.getD ""
          if rawModel ∈ EXCLUDED_MODELS then none
          else if ¬ ALLOWED_MODEL_PREFIXES.any (fun p => strBeginsWith (strLow rawModel) p)
            then none
          else some
            { id := SYNTHETIC_SPLIT ++ "-" ++ toString rowIdx
            , src := src
            , answer := answer
            , label := label
            , prompt := prompt
            , model := some rawModel
            , credit := syntheticDefaultCredit
            , datasetUrl := SYNTHETIC_DATASET_CARD_URL }

/-- `buildRealImage`: validate a COCO row into a real card. -/
def buildRealImage (rowIdx : Nat) (raw : CocoRow) : Option Card :=
  if strFalsy raw.imageSrc then none
  else
    let src := raw.imageSrc.getD ""
    if ¬ isValidImageUrl src then none
    else
      let captions := (raw.answer.getD []).filter (fun s => !(strTrim s == ""))
      let caption : Option String :=
        match captions with
        | c :: _ => some c
        | [] => raw.question
      let prompt := normalisePrompt caption
      let identifier :=
        match raw.file_name with
        | some fn => if strTrim fn == "" then toString rowIdx else strTrim fn
        | none => toString rowIdx
      some
        { id := REAL_SPLIT ++ "-" ++ identifier
        , src := src
        , answer := "real"
        , label := "real"
        , prompt := prompt
        , model := some "real"
        , credit := realDefaultCredit
        , datasetUrl := REAL_DATASET_CARD_URL }

/-- `buildOpenFakeRealImage`: only rows labeled `real` from OpenFake. -/
def buildOpenFakeRealImage (rowIdx : Nat) (raw : SynthRow) : Option Card :=
  if strFalsy raw.imageSrc || strFalsy raw.label then none
  else
    let src := raw.imageSrc.getD ""
    let label := raw.label.getD ""
    if ¬ isValidImageUrl src then none
    else if label ≠ "real" then none
    else
      let prompt := normalisePrompt raw.prompt
      some
        { id := "openfake-real-" ++ toString rowIdx
        , src := src
        , answer := "real"
        , label := "real"
        , prompt := prompt
        , model := some "real"
        , credit := openFakeRealDefaultCredit
        , datasetUrl := SYNTHETIC_DATASET_CARD_URL }

/-- `buildNanoBananaImage`. -/
def buildNanoBananaImage (rowIdx : Nat) (raw : NanoRow) : Option Card :=
  if strFalsy raw.imageSrc then none
  else
    let src := raw.imageSrc.getD ""
    if ¬ isValidImageUrl src then none
    else
      let identifier :=
        match raw.idNum with
        | some n => toString n
        | none => toString rowIdx
      some
        { id := "nanobanana-" ++ identifier
        , src := src
        , answer := "ai"
        , label := "fake"
        , prompt := "AI-generated image from Nano-Banana dataset."
        , model := some NANOBANANA_MODEL_NAME
        , credit := nanoBananaDefaultCredit
        , datasetUrl := NANOBANANA_DATASET_CARD_URL }

/-- `datasetId.split('/')[1]` (a missing component renders as `undefined`). -/
def rapidataShortId (datasetId : String) : String :=
  match (splitChar '/' datasetId.data).drop 1 with
  | h :: _ => String.mk h
  | [] => "undefined"

/-- `buildRapidataImages`: up to two fake cards per comparison row. -/
def buildRapidataImages (datasetId : String) (rowIdx : Nat) (row : RapidataRow) :
    List Card :=
  let prompt := normalisePrompt row.prompt
  let mk := fun (src m : String) (suffixTag : String) =>
    ({ id := "rapidata-" ++ rapidataShortId datasetId ++ "-" ++ toString rowIdx
            ++ "-" ++ suffixTag
     , src := src
     , answer := "ai"
     , label := "fake"
     , prompt := prompt
     , model := some m
     , credit := RAPIDATA_CREDIT
     , datasetUrl := "https://huggingface.co/datasets/" ++ datasetId } : Card)
  let first :=
    if !(strFalsy row.image1Src) && !(strFalsy row.model1)
        && isValidImageUrl (row.image1Src.getD "") then
      [mk (row.image1Src.getD "") (row.model1.getD "") "1"]
    else []
  let second :=
    if !(strFalsy row.image2Src) && !(strFalsy row.model2)
        && isValidImageUrl (row.image2Src.getD "") then
      [mk (row.image2Src.getD "") (row.model2.getD "") "2"]
    else []
  first ++ second

/-! ## Fisher–Yates shuffle -/

/-- Swap the elements at positions `i` and `j` (both in range; out-of-range
leaves the list unchanged, which the source never hits). -/
def swapAt (l : List α) (i j : Nat) : List α :=
  match l[i]?, l[j]? with
  | some a, some b => (l.set i b).set j a
  | _, _ => l

/-- The Fisher–Yates loop: `shuffleGo js i` performs the swaps for positions
`i, i-1, ..., 1`, reading `js` for the random draw
`Math.floor(Math.random() * (pos + 1))`, which always lands in `[0, pos]`. -/
def shuffleGo (js : Nat → Nat) : Nat → List α → List α
  | 0, l => l
  | i + 1, l => shuffleGo js i (swapAt l (i + 1) (js (i + 1) % (i + 2)))

/-- `shuffle`: copy then Fisher–Yates from the last position down to 1. -/
def shuffle (js : Nat → Nat) (l : List α) : List α :=
  shuffleGo js (l.length - 1) l

/-! ## Per-source cache -/

/-- A per-source cache: the `HotOrSlopImage[]` queue plus the `Set<string>`
id-set.  The JS `Set` keeps insertion order, so it is a `List String`. -/
structure Cache where
  queue : List Card
  ids : List String
deriving DecidableEq, Repr

def Cache.empty : Cache := ⟨[], []⟩

/-- `trimCache`: while over capacity, shift the head and unregister its id. -/
def trimCache : List Card → List String → List Card × List String
  | [], ids => ([], ids)
  | c :: q, ids =>
    if MAX_CACHE_SIZE < (c :: q).length then trimCache q (ids.erase c.id)
    else (c :: q, ids)

/-- One iteration of the `items.forEach` of `enqueueItems`: skip an already
registered id, otherwise register and append. -/
def enqueueStep (acc : Cache × Nat) (item : Card) : Cache × Nat :=
  if item.id ∈ acc.1.ids then acc
  else (⟨acc.1.queue ++ [item], acc.1.ids ++ [item.id]⟩, acc.2 + 1)

/-- `enqueueItems`: append cards with unseen ids, then trim if any were
added; returns the updated cache and the number newly appended. -/
def enqueueItems (cache : Cache) (items : List Card) : Cache × Nat :=
  let folded := items.foldl enqueueStep (cache, 0)
  if 0 < folded.2 then
    let trimmed := trimCache folded.1.queue folded.1.ids
    (⟨trimmed.1, trimmed.2⟩, folded.2)
  else folded

/-- Specification-side description of which cards `enqueueItems` appends:
the items whose id is new, deduplicated left to right. -/
def newCards (ids : List String) : List Card → List Card
  | [] => []
  | item :: rest =>
    if item.id ∈ ids then newCards ids rest
    else item :: newCards (ids ++ [item.id]) rest

/-- Descending insertion, modelling `Array.from(indices).sort((a, b) => b - a)`. -/
def insertDesc (x : Nat) : List Nat → List Nat
  | [] => [x]
  | y :: ys => if y ≤ x then x :: y :: ys else y :: insertDesc x ys

def sortDesc (l : List Nat) : List Nat := l.foldr insertDesc []

/-- `queue.splice(index, 1)`: the removed element (if any) and the rest. -/
def spliceOne (q : List Card) (i : Nat) : Option Card × List Card :=
  match q[i]? with
  | none => (none, q)
  | some item => (some item, q.take i ++ q.drop (i + 1))

/-- The `forEach` over the descending indices: splice each one out, skip
vacuous splices, unregister and collect the drawn card. -/
def removeIdxs (q : List Card) (ids : List String) : List Nat → List Card × List Card × List String
  | [] => ([], q, ids)
  | i :: rest =>
    match spliceOne q i with
    | (none, _) => removeIdxs q ids rest
    | (some item, q2) =>
      let r := removeIdxs q2 (ids.erase item.id) rest
      (item :: r.1, r.2.1, r.2.2)

/-- The random choices `drawFromCache` and `shuffle` consume.  `pick len n`
is the outcome of the `while (indices.size < count)` loop: the distinct
random positions chosen when `0 < n < len` (validity is a hypothesis of the
relevant theorems, `ValidPick`). -/
structure Rng where
  js : Nat → Nat
  pick : Nat → Nat → List Nat

/-- What the `while` loop of `drawFromCache` guarantees about its chosen
index set. -/
def ValidPick (pick : Nat → Nat → List Nat) : Prop :=
  ∀ len n, 0 < n → n < len →
    (pick len n).Nodup ∧ (pick len n).length = n ∧ ∀ i ∈ pick len n, i < len

/-- A canonical valid picker (the first `n` positions). -/
def defaultPick : Nat → Nat → List Nat := fun _ n => List.range n

/-- `drawFromCache`.  `count` is a JS number, kept as `Int` so that the
`count <= 0` guard is faithful. -/
def drawFromCache (rng : Rng) (cache : Cache) (count : Int) : List Card × Cache :=
  if count ≤ 0 || cache.queue.isEmpty then ([], cache)
  else if (cache.queue.length : Int) ≤ count then
    let drawn := shuffle rng.js cache.queue
    let ids := drawn.foldl (fun s item => s.erase item.id) cache.ids
    (drawn, ⟨[], ids⟩)
  else
    let idxs := sortDesc (rng.pick cache.queue.length count.toNat)
    let r := removeIdxs cache.queue cache.ids idxs
    (r.1, ⟨r.2.1, r.2.2⟩)

/-! ## Fetch oracle, assembler state -/

/-- Result of one `/rows` request: the thrown error, or the returned
`(row_idx, row)` pairs. -/
abbrev Fetched (ρ : Type) := Except String (List (Nat × ρ))

/-- The network oracle: each endpoint's response as a function of how many
times that endpoint has been queried in this run (offset and limit, being
random-offset inputs, are absorbed into the oracle). -/
structure Oracle where
  synthetic : Nat → Fetched SynthRow
  coco : Nat → Fetched CocoRow
  nano : Nat → Fetched NanoRow
  rapidata : Nat → Fetched RapidataRow

structure Env where
  rng : Rng
  oracle : Oracle

/-- The module-level mutable state of `openfake.ts`: the five caches, the
Rapidata round-robin index, and the per-endpoint call counters that index
the oracle. -/
structure AsmState where
  synthetic : Cache
  real : Cache
  nanoBanana : Cache
  openFakeReal : Cache
  rapidata : Cache
  rapidataDatasetIndex : Nat
  synCalls : Nat
  cocoCalls : Nat
  nanoCalls : Nat
  rapiCalls : Nat
deriving DecidableEq, Repr

/-- The state at process start: every cache empty. -/
def initState : AsmState :=
  ⟨Cache.empty, Cache.empty, Cache.empty, Cache.empty, Cache.empty, 0, 0, 0, 0, 0⟩

/-! ## The five draw functions

Each mirrors its source function: cache draw first, early return when
satisfied, then up to `MAX_FETCH_ATTEMPTS` fetch/validate/enqueue/draw
rounds, breaking when an attempt neither added nor took anything.  The
hardcoded row counts make `get*RowCount` pure, and the offset/limit
computation only parameterizes the oracle, so neither appears. -/

def drawSyntheticAttempts (env : Env) (count : Int) :
    Nat → List Card → AsmState → Except String (List Card × AsmState)
  | 0, result, s => .ok (result, s)
  | fuel + 1, result, s =>
    if (result.length : Int) < count then
      match env.oracle.synthetic s.synCalls with
      | .error e => .error e
      | .ok rows =>
        let s1 := { s with synCalls := s.synCalls + 1 }
        let images := rows.filterMap (fun p => buildSyntheticImage p.1 p.2)
        let enq := enqueueItems s1.synthetic images
        let s2 := { s1 with synthetic := enq.1 }
        let needed := count - (result.length : Int)
        let drawn :=
          if 0 < needed then drawFromCache env.rng s2.synthetic needed
          else ([], s2.synthetic)
        let s3 := { s2 with synthetic := drawn.2 }
        if enq.2 = 0 ∧ drawn.1.length = 0 then .ok (result ++ drawn.1, s3)
        else drawSyntheticAttempts env count fuel (result ++ drawn.1) s3
    else .ok (result, s)

def drawSyntheticCards (env : Env) (count : Int) (s : AsmState) :
    Except String (List Card × AsmState) :=
  if count ≤ 0 then .ok ([], s)
  else
    let d0 := drawFromCache env.rng s.synthetic count
    let s1 := { s with synthetic := d0.2 }
    if count ≤ (d0.1.length : Int) then .ok (d0.1, s1)
    else drawSyntheticAttempts env count MAX_FETCH_ATTEMPTS d0.1 s1

def drawNanoBananaAttempts (env : Env) (count : Int) :
    Nat → List Card → AsmState → Except String (List Card × AsmState)
  | 0, result, s => .ok (result, s)
  | fuel + 1, result, s =>
    if (result.length : Int) < count then
      match env.oracle.nano s.nanoCalls with
      | .error e => .error e
      | .ok rows =>
        let s1 := { s with nanoCalls := s.nanoCalls + 1 }
        let images := rows.filterMap (fun p => buildNanoBananaImage p.1 p.2)
        let enq := enqueueItems s1.nanoBanana images
        let s2 := { s1 with nanoBanana := enq.1 }
        let needed := count - (result.length : Int)
        let drawn :=
          if 0 < needed then drawFromCache env.rng s2.nanoBanana needed
          else ([], s2.nanoBanana)
        let s3 := { s2 with nanoBanana := drawn.2 }
        if enq.2 = 0 ∧ drawn.1.length = 0 then .ok (result ++ drawn.1, s3)
        else drawNanoBananaAttempts env count fuel (result ++ drawn.1) s3
    else .ok (result, s)

def drawNanoBananaCards (env : Env) (count : Int) (s : AsmState) :
    Except String (List Card × AsmState) :=
  if count ≤ 0 then .ok ([], s)
  else
    let d0 := drawFromCache env.rng s.nanoBanana count
    let s1 := { s with nanoBanana := d0.2 }
    if count ≤ (d0.1.length : Int) then .ok (d0.1, s1)
    else drawNanoBananaAttempts env count MAX_FETCH_ATTEMPTS d0.1 s1

def drawRealAttempts (env : Env) (count : Int) :
    Nat → List Card → AsmState → Except String (List Card × AsmState)
  | 0, result, s => .ok (result, s)
  | fuel + 1, result, s =>
    if (result.length : Int) < count then
      match env.oracle.coco s.cocoCalls with
      | .error e => .error e
      | .ok rows =>
        let s1 := { s with cocoCalls := s.cocoCalls + 1 }
        let images := rows.filterMap (fun p => buildRealImage p.1 p.2)
        let enq := enqueueItems s1.real images
        let s2 := { s1 with real := enq.1 }
        let needed := count - (result.length : Int)
        let drawn :=
          if 0 < needed then drawFromCache env.rng s2.real needed
          else ([], s2.real)
        let s3 := { s2 with real := drawn.2 }
        if enq.2 = 0 ∧ drawn.1.length = 0 then .ok (result ++ drawn.1, s3)
        else drawRealAttempts env count fuel (result ++ drawn.1) s3
    else .ok (result, s)

def drawRealCards (env : Env) (count : Int) (s : AsmState) :
    Except String (List Card × AsmState) :=
  if count ≤ 0 then .ok ([], s)
  else
    let d0 := drawFromCache env.rng s.real count
    let s1 := { s with real := d0.2 }
    if count ≤ (d0.1.length : Int) then .ok (d0.1, s1)
    else drawRealAttempts env count MAX_FETCH_ATTEMPTS d0.1 s1

def drawOpenFakeRealAttempts (env : Env) (count : Int) :
    Nat → List Card → AsmState → Except String (List Card × AsmState)
  | 0, result, s => .ok (result, s)
  | fuel + 1, result, s =>
    if (result.length : Int) < count then
      match env.oracle.synthetic s.synCalls with
      | .error e => .error e
      | .ok rows =>
        let s1 := { s with synCalls := s.synCalls + 1 }
        let images := rows.filterMap (fun p => buildOpenFakeRealImage p.1 p.2)
        let enq := enqueueItems s1.openFakeReal images
        let s2 := { s1 with openFakeReal := enq.1 }
        let needed := count - (result.length : Int)
        let drawn :=
          if 0 < needed then drawFromCache env.rng s2.openFakeReal needed
          else ([], s2.openFakeReal)
        let s3 := { s2 with openFakeReal := drawn.2 }
        if enq.2 = 0 ∧ drawn.1.length = 0 then .ok (result ++ drawn.1, s3)
        else drawOpenFakeRealAttempts env count fuel (result ++ drawn.1) s3
    else .ok (result, s)

/-- `drawOpenFakeRealCards` re-uses the synthetic `/rows` endpoint (hence
the shared `synCalls` counter) but validates for the `real` polarity and
fills its own cache. -/
def drawOpenFakeRealCards (env : Env) (count : Int) (s : AsmState) :
    Except String (List Card × AsmState) :=
  if count ≤ 0 then .ok ([], s)
  else
    let d0 := drawFromCache env.rng s.openFakeReal count
    let s1 := { s with openFakeReal := d0.2 }
    if count ≤ (d0.1.length : Int) then .ok (d0.1, s1)
    else drawOpenFakeRealAttempts env count MAX_FETCH_ATTEMPTS d0.1 s1

def drawRapidataAttempts (env : Env) (datasetId : String) (count : Int) :
    Nat → List Card → AsmState → Except String (List Card × AsmState)
  | 0, result, s => .ok (result, s)
  | fuel + 1, result, s =>
    if (result.length : Int) < count then
      match env.oracle.rapidata s.rapiCalls with
      | .error e => .error e
      | .ok rows =>
        let s1 := { s with rapiCalls := s.rapiCalls + 1 }
        let images := rows.flatMap (fun p => buildRapidataImages datasetId p.1 p.2)
        let enq := enqueueItems s1.rapidata images
        let s2 := { s1 with rapidata := enq.1 }
        let needed := count - (result.length : Int)
        let drawn :=
          if 0 < needed then drawFromCache env.rng s2.rapidata needed
          else ([], s2.rapidata)
        let s3 := { s2 with rapidata := drawn.2 }
        if enq.2 = 0 then .ok (result ++ drawn.1, s3)
        else drawRapidataAttempts env datasetId count fuel (result ++ drawn.1) s3
    else .ok (result, s)

/-- `drawRapidataCards`: round-robin over the four datasets, then the usual
attempt loop (its break condition checks only `added === 0`). -/
def drawRapidataCards (env : Env) (count : Int) (s : AsmState) :
    Except String (List Card × AsmState) :=
  if count ≤ 0 then .ok ([], s)
  else
    let d0 := drawFromCache env.rng s.rapidata count
    let s1 := { s with rapidata := d0.2 }
    if count ≤ (d0.1.length : Int) then .ok (d0.1, s1)
    else
      let datasetId := RAPIDATA_DATASET_IDS.getD s1.rapidataDatasetIndex ""
      let s2 := { s1 with
        rapidataDatasetIndex := (s1.rapidataDatasetIndex + 1) % RAPIDATA_DATASET_IDS.length }
      drawRapidataAttempts env datasetId count MAX_FETCH_ATTEMPTS d0.1 s2

/-! ## Deck targets (`fetchOpenFakeDeck`, lines computing the split) -/

def desiredOf (count : Nat) : Nat := max 8 count

/-- `Math.ceil(desired / 2)`. -/
def targetFakeOf (desired : Nat) : Nat := (desired + 1) / 2

def targetRealOf (desired : Nat) : Nat := desired - targetFakeOf desired

/-- `Math.ceil(t * 0.33)`, modelled exactly. -/
def ceil33 (t : Nat) : Nat := (33 * t + 99) / 100

/-- `Math.ceil(t * 0.6)`, modelled exactly. -/
def ceil60 (t : Nat) : Nat := (6 * t + 9) / 10

def targetOpenFakeOf (targetFake : Nat) : Nat := ceil33 targetFake
def targetNanoBananaOf (targetFake : Nat) : Nat := ceil33 targetFake

/-- `targetFake - targetOpenFake - targetNanoBanana` (non-negative for every
`targetFake ≥ 4`, which `desired ≥ 8` guarantees — see `claim_C8`). -/
def targetRapidataOf (targetFake : Nat) : Nat :=
  targetFake - targetOpenFakeOf targetFake - targetNanoBananaOf targetFake

def targetCocoRealOf (targetReal : Nat) : Nat := ceil60 targetReal

def targetOpenFakeRealOf (targetReal : Nat) : Nat :=
  targetReal - targetCocoRealOf targetReal

/-- `Math.ceil(n / k)` on naturals. -/
def ceilDivNat (n k : Nat) : Nat := (n + (k - 1)) / k

/-! ## `fetchOpenFakeDeck` -/

/-- Everything of `fetchOpenFakeDeck` up to (not including) the
`combined.length === 0` check: the five parallel initial draws, the fake and
real top-up blocks, and the five fallback draws.  Yields the accumulated
`combined` pool.  The `fakeCount`/`realCount` counters only feed the guards
of the two top-up blocks (afterwards they are only logged), so they are
dropped once those blocks are done. -/
def assembleCore (env : Env) (count : Nat) (s : AsmState) :
    Except String (List Card × AsmState) := do
  let desired := desiredOf count
  let targetFake := targetFakeOf desired
  let targetReal := targetRealOf desired
  let (initialOpenFake, s) ← drawSyntheticCards env (targetOpenFakeOf targetFake) s
  let (initialNanoBanana, s) ← drawNanoBananaCards env (targetNanoBananaOf targetFake) s
  let (initialRapidata, s) ← drawRapidataCards env (targetRapidataOf targetFake) s
  let (initialCocoReal, s) ← drawRealCards env (targetCocoRealOf targetReal) s
  let (initialOpenFakeReal, s) ← drawOpenFakeRealCards env (targetOpenFakeRealOf targetReal) s
  let combined := initialOpenFake ++ initialNanoBanana ++ initialRapidata
      ++ initialCocoReal ++ initialOpenFakeReal
  let fakeCount := initialOpenFake.length + initialNanoBanana.length + initialRapidata.length
  let realCount := initialCocoReal.length + initialOpenFakeReal.length
  -- fake top-up block
  let (combined, s) ←
    if fakeCount < targetFake then do
      let neededFake := min (targetFake - fakeCount) (desired - combined.length)
      if 0 < neededFake then do
        let (extraRapidata, s) ← drawRapidataCards env (ceilDivNat neededFake 3) s
        let combined := combined ++ extraRapidata
        let fakeCount := fakeCount + extraRapidata.length
        let (combined, fakeCount, s) ←
          if 0 < targetFake - fakeCount then do
            let (extraNano, s) ← drawNanoBananaCards env
              (ceilDivNat (targetFake - fakeCount) 2) s
            pure (combined ++ extraNano, fakeCount + extraNano.length, s)
          else pure (combined, fakeCount, s)
        if 0 < targetFake - fakeCount then do
          let (extraOpenFake, s) ← drawSyntheticCards env (targetFake - fakeCount : Nat) s
          pure (combined ++ extraOpenFake, s)
        else pure (combined, s)
      else pure (combined, s)
    else pure (combined, s)
  -- real top-up block
  let (combined, s) ←
    if realCount < targetReal then do
      let neededReal := min (targetReal - realCount) (desired - combined.length)
      if 0 < neededReal then do
        let (extraOpenFakeReal, s) ← drawOpenFakeRealCards env (ceilDivNat neededReal 2) s
        let combined := combined ++ extraOpenFakeReal
        let realCount := realCount + extraOpenFakeReal.length
        if 0 < targetReal - realCount then do
          let (extraCocoReal, s) ← drawRealCards env (targetReal - realCount : Nat) s
          pure (combined ++ extraCocoReal, s)
        else pure (combined, s)
      else pure (combined, s)
    else pure (combined, s)
  -- fallback cascade
  let (combined, s) ←
    if 0 < desired - combined.length then do
      let (extra, s) ← drawRapidataCards env (ceilDivNat (desired - combined.length) 4) s
      pure (combined ++ extra, s)
    else pure (combined, s)
  let (combined, s) ←
    if 0 < desired - combined.length then do
      let (extra, s) ← drawNanoBananaCards env (ceilDivNat (desired - combined.length) 3) s
      pure (combined ++ extra, s)
    else pure (combined, s)
  let (combined, s) ←
    if 0 < desired - combined.length then do
      let (extra, s) ← drawSyntheticCards env (ceilDivNat (desired - combined.length) 2) s
      pure (combined ++ extra, s)
    else pure (combined, s)
  let (combined, s) ←
    if 0 < desired - combined.length then do
      let (extra, s) ← drawOpenFakeRealCards env (ceilDivNat (desired - combined.length) 2) s
      pure (combined ++ extra, s)
    else pure (combined, s)
  let (combined, s) ←
    if 0 < desired - combined.length then do
      let (extra, s) ← drawRealCards env (desired - combined.length : Nat) s
      pure (combined ++ extra, s)
    else pure (combined, s)
  pure (combined, s)

/-- The tail of `fetchOpenFakeDeck`: the empty-pool check and the emergency
synthetic top-up. -/
def finishAssemble (env : Env) (count : Nat) :
    List Card × AsmState → Except String (List Card × AsmState)
  | (combined, s) =>
    if combined.length = 0 then .error noImagesMsg
    else if combined.length < desiredOf count then
      match drawSyntheticCards env (desiredOf count - combined.length : Nat) s with
      | .error e => .error e
      | .ok (finalTopUp, s2) => .ok (combined ++ finalTopUp, s2)
    else .ok (combined, s)

/-- The assembled (pre-shuffle) pool of `fetchOpenFakeDeck`. -/
def assembleOpenFakeDeck (env : Env) (count : Nat) (s : AsmState) :
    Except String (List Card × AsmState) :=
  (assembleCore env count s).bind (finishAssemble env count)

/-- `fetchOpenFakeDeck` (with `count` as the caller's request): assemble, then
`shuffle(combined).slice(0, desired)`. -/
def fetchOpenFakeDeck (env : Env) (count : Nat) (s : AsmState) :
    Except String (List Card × AsmState) :=
  (assembleOpenFakeDeck env count s).map
    (fun p => ((shuffle env.rng.js p.1).take (desiredOf count), p.2))

/-- `fetchQuickDeck`: two sources only, shuffle, `slice(0, count)` — and no
empty-pool check. -/
def fetchQuickDeck (env : Env) (count : Nat) (s : AsmState) :
    Except String (List Card × AsmState) := do
  let targetFake := (count + 1) / 2
  let targetReal := count - targetFake
  let (synthetic, s) ← drawSyntheticCards env targetFake s
  let (real, s) ← drawRealCards env targetReal s
  let combined := shuffle env.rng.js (synthetic ++ real)
  pure (combined.take count, s)

/-! ## Failure-semantics predicates -/

/-- Every cache of the state is empty (the state at process start). -/
def CachesEmpty (s : AsmState) : Prop :=
  s.synthetic.queue = [] ∧ s.real.queue = [] ∧ s.nanoBanana.queue = []
    ∧ s.openFakeReal.queue = [] ∧ s.rapidata.queue = []

/-- Every fetch against the synthetic endpoint succeeds but validates to zero
synthetic cards. -/
def SynthNoCards (env : Env) : Prop :=
  ∀ k, match env.oracle.synthetic k with
    | .ok rows => rows.filterMap (fun p => buildSyntheticImage p.1 p.2) = []
    | .error _ => False

/-- Every fetch against the synthetic endpoint validates to zero
OpenFake-real cards. -/
def OFRealNoCards (env : Env) : Prop :=
  ∀ k, match env.oracle.synthetic k with
    | .ok rows => rows.filterMap (fun p => buildOpenFakeRealImage p.1 p.2) = []
    | .error _ => False

def CocoNoCards (env : Env) : Prop :=
  ∀ k, match env.oracle.coco k with
    | .ok rows => rows.filterMap (fun p => buildRealImage p.1 p.2) = []
    | .error _ => False

def NanoNoCards (env : Env) : Prop :=
  ∀ k, match env.oracle.nano k with
    | .ok rows => rows.filterMap (fun p => buildNanoBananaImage p.1 p.2) = []
    | .error _ => False

def RapiNoCards (env : Env) : Prop :=
  ∀ k d, match env.oracle.rapidata k with
    | .ok rows => rows.flatMap (fun p => buildRapidataImages d p.1 p.2) = []
    | .error _ => False

/-- "Every source yields zero valid cards across all attempts": each endpoint
answers every request, but no row of any batch survives validation. -/
def YieldsNoCards (env : Env) : Prop :=
  SynthNoCards env ∧ CocoNoCards env ∧ NanoNoCards env ∧ RapiNoCards env
    ∧ OFRealNoCards env

/-- The cache-queue/id-set well-formedness invariant: the id-set is exactly
the ids of the queued cards, in queue order, without duplicates. -/
def CacheWF (c : Cache) : Prop :=
  c.ids = c.queue.map Card.id ∧ (c.queue.map Card.id).Nodup

instance (c : Cache) : Decidable (CacheWF c) :=
  inferInstanceAs (Decidable (c.ids = c.queue.map Card.id ∧ (c.queue.map Card.id).Nodup))

/-! ## Concrete environments for witnesses and counterexamples -/

/-- A degenerate but valid random oracle: always draw 0, pick the first
positions. -/
def rng0 : Rng := ⟨fun _ => 0, defaultPick⟩

def goodSynthRows : List (Nat × SynthRow) :=
  (List.range 12).map (fun k =>
    (k, ⟨some "https://huggingface.co/img", some "fake", some "a prompt", some "flux-x"⟩))

def goodNanoRows : List (Nat × NanoRow) :=
  (List.range 12).map (fun k => (k, ⟨some "https://huggingface.co/img", some (k : Int)⟩))

def goodRapiRows : List (Nat × RapidataRow) :=
  (List.range 6).map (fun k =>
    (k, ⟨some "p", some "https://huggingface.co/a", some "https://huggingface.co/b",
      some "m1", some "m2"⟩))

def goodCocoRows : List (Nat × CocoRow) :=
  (List.range 16).map (fun k =>
    (k, ⟨some "https://huggingface.co/c", some ["a cat"], none, some ("f" ++ toString k)⟩))

/-- The C1 scenario: the three fake sources answer with plenty of valid rows,
but every fetch of the real (COCO) source fails. -/
def envRealDown : Env :=
  ⟨rng0,
   ⟨fun _ => .ok goodSynthRows,
    fun _ => .error "Failed to fetch real rows: 500",
    fun _ => .ok goodNanoRows,
    fun _ => .ok goodRapiRows⟩⟩

/-- Every fetch succeeds with zero rows. -/
def envNone : Env :=
  ⟨rng0, ⟨fun _ => .ok [], fun _ => .ok [], fun _ => .ok [], fun _ => .ok []⟩⟩

/-- The thrown message of a rejected call, if any. -/
def errMsgOf : Except String (List Card × AsmState) → Option String
  | .error e => some e
  | .ok _ => none

/-- The returned deck of a successful call, if any. -/
def deckOf (r : Except String (List Card × AsmState)) : Option (List Card) :=
  r.toOption.map Prod.fst

/-- A well-formed COCO row used by concrete witnesses. -/
def cocoRow0 : CocoRow :=
  ⟨some "https://huggingface.co/c", some ["a cat"], none, some "f3"⟩

/-- The card `buildRealImage` produces from `cocoRow0` at row index 3. -/
def cocoCard0 : Card :=
  { id := "val-f3"
  , src := "https://huggingface.co/c"
  , answer := "real"
  , label := "real"
  , prompt := "a cat"
  , model := some "real"
  , credit := realDefaultCredit
  , datasetUrl := REAL_DATASET_CARD_URL }

/-! ## Concrete cache for the C3/C4/C5 witnesses -/

def cardA : Card :=
  ⟨"a", "https://huggingface.co/1", "ai", "fake", "p", some "flux-a",
    syntheticDefaultCredit, SYNTHETIC_DATASET_CARD_URL⟩
def cardB : Card :=
  ⟨"b", "https://huggingface.co/2", "ai", "fake", "p", some "flux-b",
    syntheticDefaultCredit, SYNTHETIC_DATASET_CARD_URL⟩
def cardC : Card :=
  ⟨"c", "https://huggingface.co/3", "ai", "fake", "p", some "flux-c",
    syntheticDefaultCredit, SYNTHETIC_DATASET_CARD_URL⟩
def cardD : Card :=
  ⟨"d", "https://huggingface.co/4", "ai", "fake", "p", some "flux-d",
    syntheticDefaultCredit, SYNTHETIC_DATASET_CARD_URL⟩

def cacheW : Cache := ⟨[cardA, cardB, cardC], ["a", "b", "c"]⟩

/-- A malformed synthetic row: no image URL at all. -/
def badSynthRow : SynthRow := ⟨none, some "fake", some "p", some "flux-x"⟩

/-- A synthetic row whose URL is plain http (disallowed). -/
def httpSynthRow : SynthRow :=
  ⟨some "http://huggingface.co/img", some "fake", some "p", some "flux-x"⟩

/-- A synthetic row with an excluded model. -/
def excludedSynthRow : SynthRow :=
  ⟨some "https://huggingface.co/img", some "fake", some "p", some "flux.1-dev"⟩

/-- A real-labeled row shown to the synthetic (fake-only) adapter. -/
def wrongPolaritySynthRow : SynthRow :=
  ⟨some "https://huggingface.co/img", some "real", some "p", some "flux-x"⟩

/-! # Lemmas -/

open scoped List

theorem cons_set_perm {α : Type u} (x : α) :
    ∀ (t : List α) (m : Nat) (hm : m < t.length),
      t.get ⟨m, hm⟩ :: t.set m x ~ x :: t := by
  intro t
  induction t with
  | nil => intro m hm; simp at hm
  | cons y ys ih =>
    intro m hm
    cases m with
    | zero => simpa using List.Perm.swap x y ys
    | succ k =>
      have hk : k < ys.length := by simpa using hm
      have h1 := ih k hk
      calc (y :: ys).get ⟨k + 1, hm⟩ :: (y :: ys).set (k + 1) x
          = ys.get ⟨k, hk⟩ :: y :: ys.set k x := by simp
        _ ~ y :: ys.get ⟨k, hk⟩ :: ys.set k x := List.Perm.swap _ _ _
        _ ~ y :: x :: ys := h1.cons y
        _ ~ x :: y :: ys := List.Perm.swap _ _ _

theorem set_set_get_perm {α : Type u} :
    ∀ (l : List α) (i j : Nat) (hi : i < l.length) (hj : j < l.length),
      (l.set i (l.get ⟨j, hj⟩)).set j (l.get ⟨i, hi⟩) ~ l := by
  intro l
  induction l with
  | nil => intro i j hi _; simp at hi
  | cons y ys ih =>
    intro i j hi hj
    cases i with
    | zero =>
      cases j with
      | zero => simp
      | succ m =>
        have hm : m < ys.length := by simpa using hj
        simpa using cons_set_perm y ys m hm
    | succ n =>
      cases j with
      | zero =>
        have hn : n < ys.length := by simpa using hi
        simpa using cons_set_perm y ys n hn
      | succ m =>
        have hn : n < ys.length := by simpa using hi
        have hm : m < ys.length := by simpa using hj
        simpa using (ih n m hn hm).cons y

theorem swapAt_perm {α : Type u} (l : List α) (i j : Nat) : swapAt l i j ~ l := by
  unfold swapAt
  cases h1 : l[i]? with
  | none => exact List.Perm.refl l
  | some a =>
    cases h2 : l[j]? with
    | none => exact List.Perm.refl l
    | some b =>
      obtain ⟨hi, ha⟩ := List.getElem?_eq_some.mp h1
      obtain ⟨hj, hb⟩ := List.getElem?_eq_some.mp h2
      have := set_set_get_perm l i j hi hj
      simpa [List.get_eq_getElem, ha, hb] using this

theorem shuffleGo_perm {α : Type u} (js : Nat → Nat) :
    ∀ (n : Nat) (l : List α), shuffleGo js n l ~ l := by
  intro n
  induction n with
  | zero => intro l; exact List.Perm.refl l
  | succ i ih => intro l; exact (ih _).trans (swapAt_perm _ _ _)

theorem shuffle_perm {α : Type u} (js : Nat → Nat) (l : List α) : shuffle js l ~ l :=
  shuffleGo_perm js _ l

theorem insertDesc_perm (x : Nat) : ∀ l : List Nat, insertDesc x l ~ x :: l := by
  intro l
  induction l with
  | nil => exact List.Perm.refl _
  | cons y ys ih =>
    unfold insertDesc
    by_cases h : y ≤ x
    · simp [h]
    · simp only [h, if_false]
      exact (ih.cons y).trans (List.Perm.swap _ _ _)

theorem sortDesc_perm : ∀ l : List Nat, sortDesc l ~ l := by
  intro l
  induction l with
  | nil => exact List.Perm.refl _
  | cons y ys ih =>
    have : sortDesc (y :: ys) = insertDesc y (sortDesc ys) := rfl
    rw [this]
    exact (insertDesc_perm y (sortDesc ys)).trans (ih.cons y)

theorem insertDesc_sorted (x : Nat) :
    ∀ l : List Nat, l.Pairwise (fun a b => b ≤ a) →
      (insertDesc x l).Pairwise (fun a b => b ≤ a) := by
  intro l
  induction l with
  | nil => intro _; simp [insertDesc]
  | cons y ys ih =>
    intro h
    obtain ⟨hy, hys⟩ := List.pairwise_cons.mp h
    unfold insertDesc
    by_cases hle : y ≤ x
    · simp only [hle, if_true]
      refine List.pairwise_cons.mpr ⟨?_, h⟩
      intro z hz
      rcases List.mem_cons.mp hz with rfl | hz
      · exact hle
      · exact le_trans (hy z hz) hle
    · simp only [hle, if_false]
      refine List.pairwise_cons.mpr ⟨?_, ih hys⟩
      intro z hz
      have hz2 : z ∈ x :: ys := (insertDesc_perm x ys).mem_iff.mp hz
      rcases List.mem_cons.mp hz2 with rfl | hz2
      · exact le_of_lt (lt_of_not_le hle)
      · exact hy z hz2

theorem sortDesc_sorted : ∀ l : List Nat, (sortDesc l).Pairwise (fun a b => b ≤ a) := by
  intro l
  induction l with
  | nil => simp [sortDesc]
  | cons y ys ih => exact insertDesc_sorted y (sortDesc ys) ih

theorem sortDesc_strict (l : List Nat) (h : l.Nodup) :
    (sortDesc l).Pairwise (fun a b => b < a) := by
  have h1 : (sortDesc l).Nodup := ((sortDesc_perm l).nodup_iff).mpr h
  have h2 := sortDesc_sorted l
  exact (h2.and h1).imp (fun hab => lt_of_le_of_ne hab.1 (Ne.symm hab.2))

/-! ## Splice / draw lemmas -/

theorem splice_eq (q : List Card) (i : Nat) (hi : i < q.length) :
    q = q.take i ++ q[i] :: q.drop (i + 1) := by
  conv_lhs => rw [← List.take_append_drop i q]
  congr 1
  rw [List.drop_eq_getElem_cons hi]

theorem splice_decomp (q : List Card) (i : Nat) (hi : i < q.length) :
    q ~ q[i] :: (q.take i ++ q.drop (i + 1)) := by
  conv_lhs => rw [splice_eq q i hi]
  exact List.perm_middle

theorem splice_len (q : List Card) (i : Nat) (hi : i < q.length) :
    (q.take i ++ q.drop (i + 1)).length = q.length - 1 := by
  simp only [List.length_append, List.length_take, List.length_drop]
  omega

theorem removeIdxs_spec :
    ∀ (idxs : List Nat) (q : List Card) (ids : List String),
      idxs.Pairwise (fun a b => b < a) → (∀ i ∈ idxs, i < q.length) →
      (removeIdxs q ids idxs).1.length = idxs.length ∧
      (removeIdxs q ids idxs).2.1.length = q.length - idxs.length ∧
      (removeIdxs q ids idxs).1 ++ (removeIdxs q ids idxs).2.1 ~ q := by
  intro idxs
  induction idxs with
  | nil =>
    intro q ids _ _
    exact ⟨rfl, by simp [removeIdxs], by simp [removeIdxs]⟩
  | cons i rest ih =>
    intro q ids hsort hlt
    have hi : i < q.length := hlt i (List.mem_cons_self i rest)
    have hsome : q[i]? = some q[i] := List.getElem?_eq_getElem hi
    have hsp : spliceOne q i = (some q[i], q.take i ++ q.drop (i + 1)) := by
      simp [spliceOne, hsome]
    have hrest : rest.Pairwise (fun a b => b < a) := (List.pairwise_cons.mp hsort).2
    have hhead : ∀ j ∈ rest, j < i := (List.pairwise_cons.mp hsort).1
    have hlen2 := splice_len q i hi
    have hlt2 : ∀ j ∈ rest, j < (q.take i ++ q.drop (i + 1)).length := by
      intro j hj
      have := hhead j hj
      omega
    obtain ⟨ihl, ihq, ihp⟩ :=
      ih (q.take i ++ q.drop (i + 1)) (ids.erase q[i].id) hrest hlt2
    have hstep : removeIdxs q ids (i :: rest) =
        (q[i] ::
            (removeIdxs (q.take i ++ q.drop (i + 1)) (ids.erase q[i].id) rest).1,
          (removeIdxs (q.take i ++ q.drop (i + 1)) (ids.erase q[i].id) rest).2.1,
          (removeIdxs (q.take i ++ q.drop (i + 1)) (ids.erase q[i].id) rest).2.2) := by
      simp [removeIdxs, hsp]
    refine ⟨?_, ?_, ?_⟩
    · rw [hstep]; simp only [List.length_cons, ihl]
    · rw [hstep]; simp only [ihq, hlen2, List.length_cons]; omega
    · rw [hstep]
      have hcons : q[i] ::
          ((removeIdxs (q.take i ++ q.drop (i + 1)) (ids.erase q[i].id) rest).1 ++
            (removeIdxs (q.take i ++ q.drop (i + 1)) (ids.erase q[i].id) rest).2.1)
          ~ q[i] :: (q.take i ++ q.drop (i + 1)) := ihp.cons _
      exact hcons.trans (splice_decomp q i hi).symm

theorem removeIdxs_wf :
    ∀ (idxs : List Nat) (q : List Card),
      idxs.Pairwise (fun a b => b < a) → (∀ i ∈ idxs, i < q.length) →
      (q.map Card.id).Nodup →
      (removeIdxs q (q.map Card.id) idxs).2.2 =
          (removeIdxs q (q.map Card.id) idxs).2.1.map Card.id
        ∧ ((removeIdxs q (q.map Card.id) idxs).2.1.map Card.id).Nodup := by
  intro idxs
  induction idxs with
  | nil =>
    intro q _ _ hnd
    exact ⟨by simp [removeIdxs], by simpa [removeIdxs] using hnd⟩
  | cons i rest ih =>
    intro q hsort hlt hnd
    have hi : i < q.length := hlt i (List.mem_cons_self i rest)
    have hsome : q[i]? = some q[i] := List.getElem?_eq_getElem hi
    have hsp : spliceOne q i = (some q[i], q.take i ++ q.drop (i + 1)) := by
      simp [spliceOne, hsome]
    have hdec : q.map Card.id =
        (q.take i).map Card.id ++ q[i].id :: (q.drop (i + 1)).map Card.id := by
      conv_lhs => rw [splice_eq q i hi]
      rw [List.map_append, List.map_cons]
    have hnotmem : q[i].id ∉ (q.take i).map Card.id := by
      rw [hdec] at hnd
      have := (List.nodup_append.mp hnd).2.2
      intro hmem
      exact (this hmem (List.mem_cons_self _ _)).elim
    have herase : (q.map Card.id).erase q[i].id =
        (q.take i ++ q.drop (i + 1)).map Card.id := by
      rw [hdec, List.erase_append_right _ hnotmem, List.erase_cons_head]
      simp
    have hnd2 : ((q.take i ++ q.drop (i + 1)).map Card.id).Nodup := by
      rw [hdec] at hnd
      have hsub : (q.take i).map Card.id ++ (q.drop (i + 1)).map Card.id
          <+ (q.take i).map Card.id ++ q[i].id :: (q.drop (i + 1)).map Card.id :=
        List.Sublist.append_left (List.sublist_cons_self _ _) _
      have := hnd.sublist hsub
      simpa using this
    have hrest : rest.Pairwise (fun a b => b < a) := (List.pairwise_cons.mp hsort).2
    have hhead : ∀ j ∈ rest, j < i := (List.pairwise_cons.mp hsort).1
    have hlen2 := splice_len q i hi
    have hlt2 : ∀ j ∈ rest, j < (q.take i ++ q.drop (i + 1)).length := by
      intro j hj
      have := hhead j hj
      omega
    have hstep : removeIdxs q (q.map Card.id) (i :: rest) =
        (q[i] ::
            (removeIdxs (q.take i ++ q.drop (i + 1))
              ((q.take i ++ q.drop (i + 1)).map Card.id) rest).1,
          (removeIdxs (q.take i ++ q.drop (i + 1))
            ((q.take i ++ q.drop (i + 1)).map Card.id) rest).2.1,
          (removeIdxs (q.take i ++ q.drop (i + 1))
            ((q.take i ++ q.drop (i + 1)).map Card.id) rest).2.2) := by
      simp [removeIdxs, hsp, herase]
    obtain ⟨ih1, ih2⟩ := ih (q.take i ++ q.drop (i + 1)) hrest hlt2 hnd2
    rw [hstep]
    exact ⟨ih1, ih2⟩

/-! ## Cache lemmas: trim and enqueue -/

theorem trimCache_eq :
    ∀ (q : List Card) (ids : List String),
      trimCache q ids =
        (q.drop (q.length - MAX_CACHE_SIZE),
          (q.take (q.length - MAX_CACHE_SIZE)).foldl (fun s c => s.erase c.id) ids) := by
  intro q
  induction q with
  | nil => intro ids; simp [trimCache]
  | cons c rest ih =>
    intro ids
    unfold trimCache
    by_cases h : MAX_CACHE_SIZE < (c :: rest).length
    · have hlen : (c :: rest).length - MAX_CACHE_SIZE = (rest.length - MAX_CACHE_SIZE) + 1 := by
        simp only [List.length_cons] at h ⊢
        omega
      simp only [h, if_true, hlen, List.drop_succ_cons, List.take_succ_cons, List.foldl_cons]
      exact ih (ids.erase c.id)
    · simp only [List.length_cons] at h
      have hlen : rest.length + 1 - MAX_CACHE_SIZE = 0 := by omega
      simp [h, hlen]

theorem trimCache_wf :
    ∀ (q : List Card) (ids : List String),
      ids = q.map Card.id → (trimCache q ids).2 = (trimCache q ids).1.map Card.id := by
  intro q
  induction q with
  | nil => intro ids h; simp [trimCache, h]
  | cons c rest ih =>
    intro ids h
    unfold trimCache
    by_cases hc : MAX_CACHE_SIZE < (c :: rest).length
    · simp only [hc, if_true]
      apply ih
      rw [h]
      simp [List.erase_cons_head]
    · simp only [hc, if_false]
      exact h

theorem foldl_enqueueStep :
    ∀ (items : List Card) (c : Cache) (n : Nat),
      items.foldl enqueueStep (c, n) =
        (⟨c.queue ++ newCards c.ids items, c.ids ++ (newCards c.ids items).map Card.id⟩,
          n + (newCards c.ids items).length) := by
  intro items
  induction items with
  | nil => intro c n; simp [newCards]
  | cons item rest ih =>
    intro c n
    by_cases h : item.id ∈ c.ids
    · have hstep : enqueueStep (c, n) item = (c, n) := by
        simp [enqueueStep, h]
      have hnew : newCards c.ids (item :: rest) = newCards c.ids rest := by
        simp [newCards, h]
      rw [List.foldl_cons, hstep, ih, hnew]
    · have hstep : enqueueStep (c, n) item =
          (⟨c.queue ++ [item], c.ids ++ [item.id]⟩, n + 1) := by
        simp [enqueueStep, h]
      have hnew : newCards c.ids (item :: rest) =
          item :: newCards (c.ids ++ [item.id]) rest := by
        simp [newCards, h]
      rw [List.foldl_cons, hstep, ih, hnew]
      simp only [Prod.mk.injEq, Cache.mk.injEq]
      refine ⟨⟨by simp, by simp⟩, by simp [Nat.add_assoc, Nat.add_comm 1]⟩

theorem newCards_not_mem :
    ∀ (items : List Card) (ids : List String) (x : Card),
      x ∈ newCards ids items → x.id ∉ ids := by
  intro items
  induction items with
  | nil => intro ids x hx; simp [newCards] at hx
  | cons item rest ih =>
    intro ids x hx
    by_cases h : item.id ∈ ids
    · simp only [newCards, h, if_true] at hx
      exact ih ids x hx
    · simp only [newCards, h, if_false] at hx
      rcases List.mem_cons.mp hx with rfl | hx
      · exact h
      · intro hmem
        exact ih (ids ++ [item.id]) x hx (List.mem_append_left _ hmem)

theorem newCards_nodup :
    ∀ (items : List Card) (ids : List String),
      ((newCards ids items).map Card.id).Nodup := by
  intro items
  induction items with
  | nil => intro ids; simp [newCards]
  | cons item rest ih =>
    intro ids
    by_cases h : item.id ∈ ids
    · simp only [newCards, h, if_true]
      exact ih ids
    · simp only [newCards, h, if_false, List.map_cons]
      refine List.nodup_cons.mpr ⟨?_, ih (ids ++ [item.id])⟩
      intro hmem
      obtain ⟨y, hy, hid⟩ := List.mem_map.mp hmem
      have := newCards_not_mem rest (ids ++ [item.id]) y hy
      exact this (hid ▸ List.mem_append_right _ (List.mem_singleton_self _))

theorem enqueueItems_snd (c : Cache) (items : List Card) :
    (enqueueItems c items).2 = (newCards c.ids items).length := by
  unfold enqueueItems
  rw [foldl_enqueueStep]
  simp only [Nat.zero_add]
  split <;> rfl

theorem enqueueItems_fst (c : Cache) (items : List Card) :
    (enqueueItems c items).1 =
      if 0 < (newCards c.ids items).length then
        ⟨(trimCache (c.queue ++ newCards c.ids items)
            (c.ids ++ (newCards c.ids items).map Card.id)).1,
          (trimCache (c.queue ++ newCards c.ids items)
            (c.ids ++ (newCards c.ids items).map Card.id)).2⟩
      else c := by
  unfold enqueueItems
  rw [foldl_enqueueStep]
  simp only [Nat.zero_add]
  by_cases h : 0 < (newCards c.ids items).length
  · simp [h]
  · have hz : (newCards c.ids items).length = 0 := by omega
    have hnil : newCards c.ids items = [] := List.length_eq_zero.mp hz
    simp [h, hnil]

/-! ## drawFromCache lemmas -/

theorem foldl_erase_perm_nil :
    ∀ (ds : List Card) (ids : List String), ids ~ ds.map Card.id →
      ds.foldl (fun s item => s.erase item.id) ids = [] := by
  intro ds
  induction ds with
  | nil => intro ids h; simpa using h.eq_nil
  | cons d rest ih =>
    intro ids h
    rw [List.foldl_cons]
    apply ih
    have h2 := h.erase d.id
    simpa [List.erase_cons_head] using h2

theorem drawFromCache_none (rng : Rng) (cache : Cache) (count : Int)
    (h : count ≤ 0 ∨ cache.queue = []) :
    drawFromCache rng cache count = ([], cache) := by
  unfold drawFromCache
  have hb : (decide (count ≤ 0) || cache.queue.isEmpty) = true := by
    rcases h with h | h
    · simp [h]
    · simp [h]
  simp [hb]

theorem drawFromCache_full (rng : Rng) (cache : Cache) (count : Int)
    (h0 : 0 < count) (hne : cache.queue ≠ [])
    (hle : (cache.queue.length : Int) ≤ count) :
    drawFromCache rng cache count =
      (shuffle rng.js cache.queue,
        ⟨[], (shuffle rng.js cache.queue).foldl
          (fun s item => s.erase item.id) cache.ids⟩) := by
  unfold drawFromCache
  have hb : (decide (count ≤ 0) || cache.queue.isEmpty) = false := by
    simp [hne, not_le.mpr h0]
  simp [hb, hle]

theorem drawFromCache_mid (rng : Rng) (cache : Cache) (count : Int)
    (h0 : 0 < count) (hlt : count < (cache.queue.length : Int)) :
    drawFromCache rng cache count =
      ((removeIdxs cache.queue cache.ids
          (sortDesc (rng.pick cache.queue.length count.toNat))).1,
        ⟨(removeIdxs cache.queue cache.ids
            (sortDesc (rng.pick cache.queue.length count.toNat))).2.1,
          (removeIdxs cache.queue cache.ids
            (sortDesc (rng.pick cache.queue.length count.toNat))).2.2⟩) := by
  unfold drawFromCache
  have hne : cache.queue ≠ [] := by
    intro hc
    rw [hc] at hlt
    simp at hlt
    omega
  have hb : (decide (count ≤ 0) || cache.queue.isEmpty) = false := by
    simp [hne, not_le.mpr h0]
  have hnle : ¬ (cache.queue.length : Int) ≤ count := not_le.mpr hlt
  simp [hb, hnle]

/-- The descending index list drawn in the partial branch is strictly
descending, has `count.toNat` entries, and stays in range. -/
theorem sortedIdxs_spec (rng : Rng) (len : Nat) (count : Int)
    (hpick : ValidPick rng.pick) (h0 : 0 < count) (hlt : count < (len : Int)) :
    (sortDesc (rng.pick len count.toNat)).Pairwise (fun a b => b < a) ∧
    (sortDesc (rng.pick len count.toNat)).length = count.toNat ∧
    ∀ i ∈ sortDesc (rng.pick len count.toNat), i < len := by
  have hn0 : 0 < count.toNat := by omega
  have hnlen : count.toNat < len := by omega
  obtain ⟨hnd, hlen, hmem⟩ := hpick len count.toNat hn0 hnlen
  refine ⟨sortDesc_strict _ hnd, ?_, ?_⟩
  · rw [(sortDesc_perm _).length_eq, hlen]
  · intro i hi
    exact hmem i ((sortDesc_perm _).mem_iff.mp hi)

/-- Well-formedness is preserved by every branch of `drawFromCache`. -/
theorem drawFromCache_wf (rng : Rng) (cache : Cache) (count : Int)
    (hpick : ValidPick rng.pick) (hwf : CacheWF cache) :
    CacheWF (drawFromCache rng cache count).2 := by
  by_cases h1 : count ≤ 0 ∨ cache.queue = []
  · rw [drawFromCache_none rng cache count h1]
    exact hwf
  · push_neg at h1
    obtain ⟨h0, hne⟩ := h1
    have h0 : 0 < count := by omega
    by_cases h2 : (cache.queue.length : Int) ≤ count
    · rw [drawFromCache_full rng cache count h0 hne h2]
      have hperm : cache.ids ~ (shuffle rng.js cache.queue).map Card.id := by
        rw [hwf.1]
        exact ((shuffle_perm rng.js cache.queue).map Card.id).symm
      constructor
      · simp [foldl_erase_perm_nil _ _ hperm]
      · simp
    · push_neg at h2
      rw [drawFromCache_mid rng cache count h0 h2]
      obtain ⟨hsort, hlen, hmem⟩ :=
        sortedIdxs_spec rng cache.queue.length count hpick h0 h2
      have hrw : cache.ids = cache.queue.map Card.id := hwf.1
      rw [hrw]
      obtain ⟨hw1, hw2⟩ := removeIdxs_wf _ cache.queue hsort hmem hwf.2
      exact ⟨hw1, by simpa using hw2⟩

/-- Well-formedness is preserved by `enqueueItems`. -/
theorem enqueueItems_wf (cache : Cache) (items : List Card) (hwf : CacheWF cache) :
    CacheWF (enqueueItems cache items).1 := by
  rw [enqueueItems_fst]
  by_cases h : 0 < (newCards cache.ids items).length
  · simp only [h, if_true]
    have hpre : cache.ids ++ (newCards cache.ids items).map Card.id =
        (cache.queue ++ newCards cache.ids items).map Card.id := by
      rw [List.map_append, hwf.1]
    have hnd : ((cache.queue ++ newCards cache.ids items).map Card.id).Nodup := by
      rw [List.map_append]
      refine List.nodup_append.mpr ⟨hwf.2, newCards_nodup _ _, ?_⟩
      intro a ha ha2
      obtain ⟨y, hy, rfl⟩ := List.mem_map.mp ha2
      exact newCards_not_mem _ _ y hy (hwf.1 ▸ ha)
    constructor
    · exact trimCache_wf _ _ hpre
    · rw [trimCache_eq]
      simp only
      rw [List.map_drop]
      exact hnd.sublist (List.map_drop _ _ _ ▸ (List.drop_sublist _ _).map Card.id)
  · simp only [h, if_false]
    exact hwf

/-- Claim C3 support: the three behaviours of `drawFromCache`. -/
theorem drawFromCache_mid_core (rng : Rng) (cache : Cache) (count : Int)
    (hpick : ValidPick rng.pick) (h0 : 0 < count)
    (hlt : count < (cache.queue.length : Int)) :
    (drawFromCache rng cache count).1.length = count.toNat ∧
    (drawFromCache rng cache count).2.queue.length = cache.queue.length - count.toNat ∧
    (drawFromCache rng cache count).1 ++ (drawFromCache rng cache count).2.queue
      ~ cache.queue := by
  obtain ⟨hsort, hlen, hmem⟩ :=
    sortedIdxs_spec rng cache.queue.length count hpick h0 hlt
  obtain ⟨r1, r2, r3⟩ := removeIdxs_spec _ cache.queue cache.ids hsort hmem
  rw [drawFromCache_mid rng cache count h0 hlt]
  exact ⟨by rw [r1, hlen], by rw [r2, hlen], r3⟩

theorem defaultPick_valid : ValidPick defaultPick := by
  intro len n h0 hlen
  unfold defaultPick
  exact ⟨List.nodup_range n, List.length_range n,
    fun i hi => lt_trans (List.mem_range.mp hi) hlen⟩

/-! ## Claim theorems: the per-source cache (C3, C4, C5) -/

/-- Claim C3 (confirmed): `drawFromCache(queue, idSet, count)` — drawing with
`count <= 0` or from an empty queue returns `[]` and leaves the cache
untouched (no error); when `count >= queue.length` it returns every cached
card exactly once (a permutation of the queue) and empties both the queue and
the id-set; when `0 < count < queue.length` it removes exactly `count`
distinct cards (splicing the chosen indices from highest to lowest, so the
queue is never corrupted), returns them, leaves the queue shorter by exactly
`count`, and unregisters each drawn card's id. -/
theorem claim_C3 (rng : Rng) (cache : Cache) (count : Int)
    (hpick : ValidPick rng.pick) (hwf : CacheWF cache) :
    (count ≤ 0 ∨ cache.queue = [] → drawFromCache rng cache count = ([], cache)) ∧
    (0 < count → (cache.queue.length : Int) ≤ count →
      (drawFromCache rng cache count).1 ~ cache.queue ∧
      (drawFromCache rng cache count).2.queue = [] ∧
      (drawFromCache rng cache count).2.ids = []) ∧
    (0 < count → count < (cache.queue.length : Int) →
      (drawFromCache rng cache count).1.length = count.toNat ∧
      ((drawFromCache rng cache count).1.map Card.id).Nodup ∧
      (drawFromCache rng cache count).2.queue.length
        = cache.queue.length - count.toNat ∧
      (drawFromCache rng cache count).1 ++ (drawFromCache rng cache count).2.queue
        ~ cache.queue ∧
      (∀ x ∈ (drawFromCache rng cache count).1,
        x.id ∉ (drawFromCache rng cache count).2.ids)) := by
  refine ⟨fun h => drawFromCache_none rng cache count h, ?_, ?_⟩
  · intro h0 hle
    by_cases hne : cache.queue = []
    · rw [drawFromCache_none rng cache count (Or.inr hne)]
      refine ⟨by rw [hne], hne, ?_⟩
      rw [hwf.1, hne]
      rfl
    · rw [drawFromCache_full rng cache count h0 hne hle]
      have hperm : cache.ids ~ (shuffle rng.js cache.queue).map Card.id := by
        rw [hwf.1]
        exact ((shuffle_perm rng.js cache.queue).map Card.id).symm
      exact ⟨shuffle_perm rng.js cache.queue, rfl,
        foldl_erase_perm_nil _ _ hperm⟩
  · intro h0 hlt
    obtain ⟨r1, r2, r3⟩ := drawFromCache_mid_core rng cache count hpick h0 hlt
    have hwf2 := drawFromCache_wf rng cache count hpick hwf
    have hndall : (((drawFromCache rng cache count).1
        ++ (drawFromCache rng cache count).2.queue).map Card.id).Nodup :=
      ((r3.map Card.id).nodup_iff).mpr (hwf.1 ▸ hwf.2)
    rw [List.map_append] at hndall
    obtain ⟨hnd1, hnd2, hdisj⟩ := List.nodup_append.mp hndall
    refine ⟨r1, hnd1, r2, r3, ?_⟩
    intro x hx hmem
    rw [hwf2.1] at hmem
    exact hdisj (List.mem_map_of_mem Card.id hx) hmem

/-- Claim C4 (confirmed): for any sequence of enqueue/draw operations, the
cache invariant holds: already-registered ids are skipped by `enqueueItems`
(captured by `newCards`), the id-set is always exactly the ids of the queued
cards with no duplicates, and the returned count is the number of cards newly
appended. -/
theorem claim_C4 (rng : Rng) (cache : Cache) (items : List Card) (count : Int)
    (hpick : ValidPick rng.pick) (hwf : CacheWF cache) :
    CacheWF (enqueueItems cache items).1 ∧
    (enqueueItems cache items).2 = (newCards cache.ids items).length ∧
    CacheWF (drawFromCache rng cache count).2 :=
  ⟨enqueueItems_wf cache items hwf, enqueueItems_snd cache items,
    drawFromCache_wf rng cache count hpick hwf⟩

/-- Claim C5 (confirmed): after any `enqueueItems` the queue length is at most
`MAX_CACHE_SIZE = 600`; the resulting queue is a suffix of the appended queue
(eviction happens at the head, oldest first), and the resulting id-set is
exactly the ids of the surviving cards (so each evicted id was removed). -/
theorem claim_C5 (cache : Cache) (items : List Card)
    (hlen : cache.queue.length ≤ MAX_CACHE_SIZE) :
    (enqueueItems cache items).1.queue.length ≤ MAX_CACHE_SIZE ∧
    ((enqueueItems cache items).1.queue).IsSuffix
      (cache.queue ++ newCards cache.ids items) ∧
    (CacheWF cache →
      (enqueueItems cache items).1.ids
        = (enqueueItems cache items).1.queue.map Card.id) := by
  have hfst := enqueueItems_fst cache items
  by_cases h : 0 < (newCards cache.ids items).length
  · rw [hfst]
    simp only [h, if_true]
    refine ⟨?_, ?_, ?_⟩
    · show (trimCache (cache.queue ++ newCards cache.ids items)
          (cache.ids ++ (newCards cache.ids items).map Card.id)).1.length
        ≤ MAX_CACHE_SIZE
      rw [trimCache_eq]
      dsimp only
      rw [List.length_drop]
      omega
    · show (trimCache (cache.queue ++ newCards cache.ids items)
          (cache.ids ++ (newCards cache.ids items).map Card.id)).1.IsSuffix _
      rw [trimCache_eq]
      dsimp only
      exact List.drop_suffix _ _
    · intro hwf
      have hpre : cache.ids ++ (newCards cache.ids items).map Card.id =
          (cache.queue ++ newCards cache.ids items).map Card.id := by
        rw [List.map_append, hwf.1]
      exact trimCache_wf (cache.queue ++ newCards cache.ids items) _ hpre
  · have hz : (newCards cache.ids items).length = 0 := by omega
    have hnil : newCards cache.ids items = [] := List.length_eq_zero.mp hz
    rw [hfst]
    simp only [h, if_false, hnil, List.append_nil]
    exact ⟨hlen, List.suffix_refl _, fun hwf => hwf.1⟩

theorem claim_C3_witness :
    drawFromCache rng0 cacheW 0 = ([], cacheW) ∧
    (drawFromCache rng0 cacheW 2).1.length = (2 : Int).toNat ∧
    (drawFromCache rng0 cacheW 5).2.queue = [] :=
  ⟨(claim_C3 rng0 cacheW 0 defaultPick_valid (by decide)).1 (Or.inl (by decide)),
    ((claim_C3 rng0 cacheW 2 defaultPick_valid (by decide)).2.2 (by decide)
      (by decide)).1,
    ((claim_C3 rng0 cacheW 5 defaultPick_valid (by decide)).2.1 (by decide)
      (by decide)).2.1⟩

theorem claim_C4_witness :
    CacheWF (enqueueItems cacheW [cardD, cardA]).1 ∧
    (enqueueItems cacheW [cardD, cardA]).2
      = (newCards cacheW.ids [cardD, cardA]).length ∧
    CacheWF (drawFromCache rng0 cacheW 2).2 :=
  claim_C4 rng0 cacheW [cardD, cardA] 2 defaultPick_valid (by decide)

theorem claim_C5_witness :
    (enqueueItems cacheW [cardD]).1.queue.length ≤ MAX_CACHE_SIZE ∧
    ((enqueueItems cacheW [cardD]).1.queue).IsSuffix
      (cacheW.queue ++ newCards cacheW.ids [cardD]) ∧
    (CacheWF cacheW →
      (enqueueItems cacheW [cardD]).1.ids
        = (enqueueItems cacheW [cardD]).1.queue.map Card.id) :=
  claim_C5 cacheW [cardD] (by decide)

/-! ## Claim theorems: validation (C6, C9) -/

/-- Claim C6 (confirmed): each adapter's row validator is a pure total
function into `Option Card` (totality is by construction in this embedding —
the sources' only throwing subterm, `new URL`, is wrapped in `try/catch`
inside `isValidImageUrl`), and it returns `none` whenever the image URL is
missing (or empty), the URL fails the https/allow-listed-host check, the
label does not map to a known answer, the model is excluded, or the row's
polarity does not match the adapter (`buildSyntheticImage` rejects non-`fake`
rows, `buildOpenFakeRealImage` rejects non-`real` rows). -/
theorem claim_C6 (i : Nat) (rawS : SynthRow) (rawC : CocoRow) (rawO : SynthRow)
    (rawN : NanoRow) :
    (strFalsy rawS.imageSrc = true → buildSyntheticImage i rawS = none) ∧
    (∀ u, rawS.imageSrc = some u → isValidImageUrl u = false →
      buildSyntheticImage i rawS = none) ∧
    (∀ l, rawS.label = some l → labelToAnswer l = none →
      buildSyntheticImage i rawS = none) ∧
    (rawS.label ≠ some "fake" → buildSyntheticImage i rawS = none) ∧
    (∀ m, rawS.model = some m → m ∈ EXCLUDED_MODELS →
      buildSyntheticImage i rawS = none) ∧
    (strFalsy rawC.imageSrc = true → buildRealImage i rawC = none) ∧
    (∀ u, rawC.imageSrc = some u → isValidImageUrl u = false →
      buildRealImage i rawC = none) ∧
    (strFalsy rawO.imageSrc = true → buildOpenFakeRealImage i rawO = none) ∧
    (∀ u, rawO.imageSrc = some u → isValidImageUrl u = false →
      buildOpenFakeRealImage i rawO = none) ∧
    (rawO.label ≠ some "real" → buildOpenFakeRealImage i rawO = none) ∧
    (strFalsy rawN.imageSrc = true → buildNanoBananaImage i rawN = none) ∧
    (∀ u, rawN.imageSrc = some u → isValidImageUrl u = false →
      buildNanoBananaImage i rawN = none) := by
  refine ⟨?_, ?_, ?_, ?_, ?_, ?_, ?_, ?_, ?_, ?_, ?_, ?_⟩
  · intro h
    simp [buildSyntheticImage, h]
  · intro u hu hv
    by_cases hsu : strFalsy (some u) = true
    · simp [buildSyntheticImage, hu, hsu]
    · by_cases hl : strFalsy rawS.label = true
      · simp [buildSyntheticImage, hu, hl]
      · simp [buildSyntheticImage, hu, hsu, hl, hv]
  · intro l hl hmap
    have hne : l ≠ "fake" := by
      intro hc
      rw [hc] at hmap
      simp [labelToAnswer] at hmap
    by_cases hsu : strFalsy rawS.imageSrc = true
    · simp [buildSyntheticImage, hsu]
    · by_cases hv : isValidImageUrl (rawS.imageSrc.getD "") = true
      · simp [buildSyntheticImage, hsu, hl, hv, hne, strFalsy]
      · simp [buildSyntheticImage, hsu, hl, hv]
  · intro hne
    by_cases hsu : strFalsy rawS.imageSrc = true
    · simp [buildSyntheticImage, hsu]
    · by_cases hl : strFalsy rawS.label = true
      · simp [buildSyntheticImage, hsu, hl]
      · have hlab : rawS.label.getD "" ≠ "fake" := by
          cases hx : rawS.label with
          | none => simp [hx, strFalsy] at hl
          | some v =>
            intro hc
            simp only [hx, Option.getD_some] at hc
            exact hne (by rw [hx, hc])
        by_cases hv : isValidImageUrl (rawS.imageSrc.getD "") = true
        · simp [buildSyntheticImage, hsu, hl, hv, hlab]
        · simp [buildSyntheticImage, hsu, hl, hv]
  · intro m hm hmem
    by_cases hsu : strFalsy rawS.imageSrc = true
    · simp [buildSyntheticImage, hsu]
    · by_cases hl : strFalsy rawS.label = true
      · simp [buildSyntheticImage, hsu, hl]
      · by_cases hv : isValidImageUrl (rawS.imageSrc.getD "") = true
        · by_cases hlab : rawS.label.getD "" = "fake"
          · by_cases hmf : strFalsy rawS.model = true
            · simp [buildSyntheticImage, hsu, hl, hv, hlab, hmf, labelToAnswer]
            · simp [buildSyntheticImage, hsu, hl, hv, hlab, hmf, labelToAnswer,
                hm, hmem]
          · simp [buildSyntheticImage, hsu, hl, hv, hlab]
        · simp [buildSyntheticImage, hsu, hl, hv]
  · intro h
    simp [buildRealImage, h]
  · intro u hu hv
    by_cases hsu : strFalsy (some u) = true
    · simp [buildRealImage, hu, hsu]
    · simp [buildRealImage, hu, hsu, hv]
  · intro h
    simp [buildOpenFakeRealImage, h]
  · intro u hu hv
    by_cases hsu : strFalsy (some u) = true
    · simp [buildOpenFakeRealImage, hu, hsu]
    · by_cases hl : strFalsy rawO.label = true
      · simp [buildOpenFakeRealImage, hu, hl]
      · simp [buildOpenFakeRealImage, hu, hsu, hl, hv]
  · intro hne
    by_cases hsu : strFalsy rawO.imageSrc = true
    · simp [buildOpenFakeRealImage, hsu]
    · by_cases hl : strFalsy rawO.label = true
      · simp [buildOpenFakeRealImage, hsu, hl]
      · have hlab : rawO.label.getD "" ≠ "real" := by
          cases hx : rawO.label with
          | none => simp [hx, strFalsy] at hl
          | some v =>
            intro hc
            simp only [hx, Option.getD_some] at hc
            exact hne (by rw [hx, hc])
        by_cases hv : isValidImageUrl (rawO.imageSrc.getD "") = true
        · simp [buildOpenFakeRealImage, hsu, hl, hv, hlab]
        · simp [buildOpenFakeRealImage, hsu, hl, hv]
  · intro h
    simp [buildNanoBananaImage, h]
  · intro u hu hv
    by_cases hsu : strFalsy (some u) = true
    · simp [buildNanoBananaImage, hu, hsu]
    · simp [buildNanoBananaImage, hu, hsu, hv]

theorem claim_C6_witness :
    buildSyntheticImage 0 badSynthRow = none ∧
    buildSyntheticImage 0 httpSynthRow = none ∧
    buildSyntheticImage 0 excludedSynthRow = none ∧
    buildSyntheticImage 0 wrongPolaritySynthRow = none ∧
    buildOpenFakeRealImage 0 excludedSynthRow = none :=
  ⟨(claim_C6 0 badSynthRow cocoRow0 badSynthRow ⟨none, none⟩).1 (by decide),
    (claim_C6 0 httpSynthRow cocoRow0 badSynthRow ⟨none, none⟩).2.1
      "http://huggingface.co/img" (by decide) (by decide),
    (claim_C6 0 excludedSynthRow cocoRow0 badSynthRow ⟨none, none⟩).2.2.2.2.1
      "flux.1-dev" (by decide) (by decide),
    (claim_C6 0 wrongPolaritySynthRow cocoRow0 badSynthRow ⟨none, none⟩).2.2.2.1
      (by decide),
    (claim_C6 0 badSynthRow cocoRow0 excludedSynthRow ⟨none, none⟩).2.2.2.2.2.2.2.2.2.1
      (by decide)⟩

/-- Claim C9 counterexample: `buildRealImage` gives a `real`-answer card whose
`model` field is *present* (the sentinel string `"real"`), so real cards do
carry a model name. -/
theorem claim_C9_counterexample :
    buildRealImage 3 cocoRow0 = some cocoCard0 ∧ cocoCard0.answer = "real"
      ∧ cocoCard0.model = some "real" := by
  refine ⟨by decide, rfl, rfl⟩

/-- Claim C9 (corrected): every card produced by any validator carries a
`model` value — the real adapters set the sentinel `"real"` rather than
leaving the field absent; AI cards carry their generator's name.  (The claim
as stated — real cards carry *no* model name — is false.) -/
theorem claim_C9 (i : Nat) (rawS : SynthRow) (rawC : CocoRow) (rawO : SynthRow)
    (rawN : NanoRow) (c : Card) :
    (buildSyntheticImage i rawS = some c → c.answer = "ai" ∧ c.model ≠ none) ∧
    (buildRealImage i rawC = some c → c.answer = "real" ∧ c.model = some "real") ∧
    (buildOpenFakeRealImage i rawO = some c →
      c.answer = "real" ∧ c.model = some "real") ∧
    (buildNanoBananaImage i rawN = some c →
      c.answer = "ai" ∧ c.model = some NANOBANANA_MODEL_NAME) ∧
    (∀ ds rr, c ∈ buildRapidataImages ds i rr → c.answer = "ai" ∧ c.model ≠ none) := by
  refine ⟨?_, ?_, ?_, ?_, ?_⟩
  · intro h
    unfold buildSyntheticImage at h
    dsimp only at h
    repeat' split at h
    all_goals try exact Option.noConfusion h
    all_goals injection h with h
    all_goals subst h
    all_goals rename_i ans hans hb1 hb2 hb3
    all_goals simp only [labelToAnswer] at hans
    all_goals split at hans
    all_goals first
      | exact Option.noConfusion hans
      | (injection hans with hans; subst hans; exact ⟨rfl, by simp⟩)
      | simp_all
  · intro h
    unfold buildRealImage at h
    dsimp only at h
    repeat' split at h
    all_goals try exact Option.noConfusion h
    all_goals injection h with h
    all_goals subst h
    all_goals exact ⟨rfl, rfl⟩
  · intro h
    unfold buildOpenFakeRealImage at h
    dsimp only at h
    repeat' split at h
    all_goals try exact Option.noConfusion h
    all_goals injection h with h
    all_goals subst h
    all_goals exact ⟨rfl, rfl⟩
  · intro h
    unfold buildNanoBananaImage at h
    dsimp only at h
    repeat' split at h
    all_goals try exact Option.noConfusion h
    all_goals injection h with h
    all_goals subst h
    all_goals exact ⟨rfl, rfl⟩
  · intro ds rr hmem
    unfold buildRapidataImages at hmem
    dsimp only at hmem
    rw [List.mem_append] at hmem
    rcases hmem with hmem | hmem
    all_goals split at hmem
    all_goals simp only [List.mem_singleton, List.not_mem_nil] at hmem
    all_goals first
      | exact absurd hmem (by simp)
      | (subst hmem; exact ⟨rfl, by simp⟩)

theorem claim_C9_witness :
    cocoCard0.answer = "real" ∧ cocoCard0.model = some "real" :=
  (claim_C9 3 badSynthRow cocoRow0 badSynthRow ⟨none, none⟩ cocoCard0).2.1 (by decide)

/-! ## Claim theorems: split exactness (C8) and shuffle (C10) -/

/-- Claim C8 (confirmed): for every request (`desired = max(8, count)`),
`targetFake + targetReal = desired`; the fake sub-targets and the real
sub-targets each sum exactly to their polarity's target because the last
source absorbs the remainder; and the two leading `ceil` shares never exceed
the target (which is what makes the remainder sub-targets non-negative in the
source's JS arithmetic — here witnessed by the `≤` conjuncts, so the `Nat`
subtractions in `targetRapidataOf`/`targetOpenFakeRealOf` agree with the
untruncated values). -/
theorem claim_C8 (count : Nat) :
    targetFakeOf (desiredOf count) + targetRealOf (desiredOf count)
        = desiredOf count ∧
    targetOpenFakeOf (targetFakeOf (desiredOf count))
        + targetNanoBananaOf (targetFakeOf (desiredOf count))
        + targetRapidataOf (targetFakeOf (desiredOf count))
        = targetFakeOf (desiredOf count) ∧
    targetCocoRealOf (targetRealOf (desiredOf count))
        + targetOpenFakeRealOf (targetRealOf (desiredOf count))
        = targetRealOf (desiredOf count) ∧
    targetOpenFakeOf (targetFakeOf (desiredOf count))
        + targetNanoBananaOf (targetFakeOf (desiredOf count))
        ≤ targetFakeOf (desiredOf count) ∧
    targetCocoRealOf (targetRealOf (desiredOf count))
        ≤ targetRealOf (desiredOf count) := by
  simp only [desiredOf, targetFakeOf, targetRealOf, targetOpenFakeOf,
    targetNanoBananaOf, targetRapidataOf, targetCocoRealOf, targetOpenFakeRealOf,
    ceil33, ceil60]
  omega

/-- Claim C10 (confirmed): `shuffle` returns a permutation of its input (same
length, same elements with the same multiplicities — the embedding is pure,
matching the source's copy-before-swap, which leaves the input array
untouched); consequently the shuffle/truncate output stage of
`fetchOpenFakeDeck` neither duplicates nor invents cards: the returned deck
is a sub-permutation of the assembled pool. -/
theorem claim_C10 :
    (∀ (js : Nat → Nat) (l : List Card), shuffle js l ~ l) ∧
    (∀ (js : Nat → Nat) (l : List Card) (n : Nat), ((shuffle js l).take n).Subperm l) ∧
    (∀ (env : Env) (count : Nat) (s : AsmState),
      match fetchOpenFakeDeck env count s, assembleOpenFakeDeck env count s with
      | .ok (d, _), .ok (pool, _) => d.Subperm pool
      | .ok _, .error _ => False
      | .error _, _ => True) := by
  refine ⟨fun js l => shuffle_perm js l, ?_, ?_⟩
  · intro js l n
    exact ((List.take_sublist n _).subperm).trans (shuffle_perm js l).subperm
  · intro env count s
    cases h : assembleOpenFakeDeck env count s with
    | error e =>
      have hf : fetchOpenFakeDeck env count s = .error e := by
        unfold fetchOpenFakeDeck
        rw [h]
        rfl
      rw [hf]
      trivial
    | ok p =>
      obtain ⟨pool, s2⟩ := p
      have hf : fetchOpenFakeDeck env count s =
          .ok ((shuffle env.rng.js pool).take (desiredOf count), s2) := by
        unfold fetchOpenFakeDeck
        rw [h]
        rfl
      rw [hf]
      exact ((List.take_sublist _ _).subperm).trans (shuffle_perm _ _).subperm

/-! ## Draw-function lemmas for the failure-semantics claims -/

theorem enqueueItems_nil (c : Cache) : enqueueItems c [] = (c, 0) := rfl

theorem drawSyntheticCards_empty (env : Env) (count : Int) (s : AsmState)
    (hor : SynthNoCards env) (hce : CachesEmpty s) :
    ∃ s2, drawSyntheticCards env count s = .ok ([], s2) ∧ CachesEmpty s2 := by
  obtain ⟨he1, he2, he3, he4, he5⟩ := hce
  unfold drawSyntheticCards
  by_cases hc : count ≤ 0
  · exact ⟨s, by rw [if_pos hc], he1, he2, he3, he4, he5⟩
  · rw [if_neg hc]
    have hd0 : drawFromCache env.rng s.synthetic count = ([], s.synthetic) :=
      drawFromCache_none _ _ _ (Or.inr he1)
    simp only [hd0]
    have hnc : ¬ count ≤ ((([] : List Card).length : Int)) := by simpa using hc
    rw [if_neg hnc]
    show ∃ s2, drawSyntheticAttempts env count MAX_FETCH_ATTEMPTS []
      { s with synthetic := s.synthetic } = .ok ([], s2) ∧ CachesEmpty s2
    unfold MAX_FETCH_ATTEMPTS
    unfold drawSyntheticAttempts
    have h0 : ((([] : List Card).length : Int)) < count := by simpa using hc
    rw [if_pos h0]
    have hk := hor s.synCalls
    cases hk2 : env.oracle.synthetic s.synCalls with
    | error e => rw [hk2] at hk; exact absurd hk (by simp)
    | ok rows =>
      rw [hk2] at hk
      simp only at hk
      simp only [hk2, hk]
      rw [enqueueItems_nil]
      simp only
      have hd1 : ∀ cc : Int, drawFromCache env.rng s.synthetic cc = ([], s.synthetic) :=
        fun cc => drawFromCache_none _ _ _ (Or.inr he1)
      simp only [hd1]
      refine ⟨{ s with synCalls := s.synCalls + 1 }, ?_, he1, he2, he3, he4, he5⟩
      simp

theorem drawNanoBananaCards_empty (env : Env) (count : Int) (s : AsmState)
    (hor : NanoNoCards env) (hce : CachesEmpty s) :
    ∃ s2, drawNanoBananaCards env count s = .ok ([], s2) ∧ CachesEmpty s2 := by
  obtain ⟨he1, he2, he3, he4, he5⟩ := hce
  unfold drawNanoBananaCards
  by_cases hc : count ≤ 0
  · exact ⟨s, by rw [if_pos hc], he1, he2, he3, he4, he5⟩
  · rw [if_neg hc]
    have hd0 : drawFromCache env.rng s.nanoBanana count = ([], s.nanoBanana) :=
      drawFromCache_none _ _ _ (Or.inr he3)
    simp only [hd0]
    have hnc : ¬ count ≤ ((([] : List Card).length : Int)) := by simpa using hc
    rw [if_neg hnc]
    show ∃ s2, drawNanoBananaAttempts env count MAX_FETCH_ATTEMPTS []
      { s with nanoBanana := s.nanoBanana } = .ok ([], s2) ∧ CachesEmpty s2
    unfold MAX_FETCH_ATTEMPTS
    unfold drawNanoBananaAttempts
    have h0 : ((([] : List Card).length : Int)) < count := by simpa using hc
    rw [if_pos h0]
    have hk := hor s.nanoCalls
    cases hk2 : env.oracle.nano s.nanoCalls with
    | error e => rw [hk2] at hk; exact absurd hk (by simp)
    | ok rows =>
      rw [hk2] at hk
      simp only at hk
      simp only [hk2, hk]
      rw [enqueueItems_nil]
      simp only
      have hd1 : ∀ cc : Int, drawFromCache env.rng s.nanoBanana cc = ([], s.nanoBanana) :=
        fun cc => drawFromCache_none _ _ _ (Or.inr he3)
      simp only [hd1]
      refine ⟨{ s with nanoCalls := s.nanoCalls + 1 }, ?_, he1, he2, he3, he4, he5⟩
      simp

theorem drawRealCards_empty (env : Env) (count : Int) (s : AsmState)
    (hor : CocoNoCards env) (hce : CachesEmpty s) :
    ∃ s2, drawRealCards env count s = .ok ([], s2) ∧ CachesEmpty s2 := by
  obtain ⟨he1, he2, he3, he4, he5⟩ := hce
  unfold drawRealCards
  by_cases hc : count ≤ 0
  · exact ⟨s, by rw [if_pos hc], he1, he2, he3, he4, he5⟩
  · rw [if_neg hc]
    have hd0 : drawFromCache env.rng s.real count = ([], s.real) :=
      drawFromCache_none _ _ _ (Or.inr he2)
    simp only [hd0]
    have hnc : ¬ count ≤ ((([] : List Card).length : Int)) := by simpa using hc
    rw [if_neg hnc]
    show ∃ s2, drawRealAttempts env count MAX_FETCH_ATTEMPTS []
      { s with real := s.real } = .ok ([], s2) ∧ CachesEmpty s2
    unfold MAX_FETCH_ATTEMPTS
    unfold drawRealAttempts
    have h0 : ((([] : List Card).length : Int)) < count := by simpa using hc
    rw [if_pos h0]
    have hk := hor s.cocoCalls
    cases hk2 : env.oracle.coco s.cocoCalls with
    | error e => rw [hk2] at hk; exact absurd hk (by simp)
    | ok rows =>
      rw [hk2] at hk
      simp only at hk
      simp only [hk2, hk]
      rw [enqueueItems_nil]
      simp only
      have hd1 : ∀ cc : Int, drawFromCache env.rng s.real cc = ([], s.real) :=
        fun cc => drawFromCache_none _ _ _ (Or.inr he2)
      simp only [hd1]
      refine ⟨{ s with cocoCalls := s.cocoCalls + 1 }, ?_, he1, he2, he3, he4, he5⟩
      simp

theorem drawOpenFakeRealCards_empty (env : Env) (count : Int) (s : AsmState)
    (hor : OFRealNoCards env) (hce : CachesEmpty s) :
    ∃ s2, drawOpenFakeRealCards env count s = .ok ([], s2) ∧ CachesEmpty s2 := by
  obtain ⟨he1, he2, he3, he4, he5⟩ := hce
  unfold drawOpenFakeRealCards
  by_cases hc : count ≤ 0
  · exact ⟨s, by rw [if_pos hc], he1, he2, he3, he4, he5⟩
  · rw [if_neg hc]
    have hd0 : drawFromCache env.rng s.openFakeReal count = ([], s.openFakeReal) :=
      drawFromCache_none _ _ _ (Or.inr he4)
    simp only [hd0]
    have hnc : ¬ count ≤ ((([] : List Card).length : Int)) := by simpa using hc
    rw [if_neg hnc]
    show ∃ s2, drawOpenFakeRealAttempts env count MAX_FETCH_ATTEMPTS []
      { s with openFakeReal := s.openFakeReal } = .ok ([], s2) ∧ CachesEmpty s2
    unfold MAX_FETCH_ATTEMPTS
    unfold drawOpenFakeRealAttempts
    have h0 : ((([] : List Card).length : Int)) < count := by simpa using hc
    rw [if_pos h0]
    have hk := hor s.synCalls
    cases hk2 : env.oracle.synthetic s.synCalls with
    | error e => rw [hk2] at hk; exact absurd hk (by simp)
    | ok rows =>
      rw [hk2] at hk
      simp only at hk
      simp only [hk2, hk]
      rw [enqueueItems_nil]
      simp only
      have hd1 : ∀ cc : Int,
          drawFromCache env.rng s.openFakeReal cc = ([], s.openFakeReal) :=
        fun cc => drawFromCache_none _ _ _ (Or.inr he4)
      simp only [hd1]
      refine ⟨{ s with synCalls := s.synCalls + 1 }, ?_, he1, he2, he3, he4, he5⟩
      simp

theorem drawRapidataCards_empty (env : Env) (count : Int) (s : AsmState)
    (hor : RapiNoCards env) (hce : CachesEmpty s) :
    ∃ s2, drawRapidataCards env count s = .ok ([], s2) ∧ CachesEmpty s2 := by
  obtain ⟨he1, he2, he3, he4, he5⟩ := hce
  unfold drawRapidataCards
  by_cases hc : count ≤ 0
  · exact ⟨s, by rw [if_pos hc], he1, he2, he3, he4, he5⟩
  · rw [if_neg hc]
    have hd0 : drawFromCache env.rng s.rapidata count = ([], s.rapidata) :=
      drawFromCache_none _ _ _ (Or.inr he5)
    simp only [hd0]
    have hnc : ¬ count ≤ ((([] : List Card).length : Int)) := by simpa using hc
    rw [if_neg hnc]
    unfold MAX_FETCH_ATTEMPTS
    unfold drawRapidataAttempts
    have h0 : ((([] : List Card).length : Int)) < count := by simpa using hc
    rw [if_pos h0]
    have hk := hor s.rapiCalls
      (RAPIDATA_DATASET_IDS.getD s.rapidataDatasetIndex "")
    cases hk2 : env.oracle.rapidata s.rapiCalls with
    | error e => rw [hk2] at hk; exact absurd hk (by simp)
    | ok rows =>
      rw [hk2] at hk
      simp only at hk
      simp only [hk2, hk]
      rw [enqueueItems_nil]
      simp only
      have hd1 : ∀ cc : Int, drawFromCache env.rng s.rapidata cc = ([], s.rapidata) :=
        fun cc => drawFromCache_none _ _ _ (Or.inr he5)
      simp only [hd1]
      refine ⟨{ s with
        rapidataDatasetIndex := (s.rapidataDatasetIndex + 1) % RAPIDATA_DATASET_IDS.length,
        rapiCalls := s.rapiCalls + 1 }, ?_, he1, he2, he3, he4, he5⟩
      simp

theorem drawSyntheticAttempts_real (env : Env) (count : Int) :
    ∀ (fuel : Nat) (result : List Card) (s : AsmState) (r : List Card) (s2 : AsmState),
      drawSyntheticAttempts env count fuel result s = .ok (r, s2) → s2.real = s.real := by
  intro fuel
  induction fuel with
  | zero =>
    intro result s r s2 h
    unfold drawSyntheticAttempts at h
    injection h with h
    exact congrArg AsmState.real (Prod.mk.inj h).2.symm
  | succ fuel ih =>
    intro result s r s2 h
    unfold drawSyntheticAttempts at h
    split at h
    · split at h
      · exact Except.noConfusion h
      · dsimp only at h
        split at h
        all_goals split at h
        all_goals first
          | (injection h with h;
              exact (congrArg AsmState.real (Prod.mk.inj h).2.symm).trans rfl)
          | exact (ih _ _ _ _ h).trans rfl
    · injection h with h
      exact congrArg AsmState.real (Prod.mk.inj h).2.symm

theorem drawSyntheticCards_real (env : Env) (count : Int) (s : AsmState)
    (r : List Card) (s2 : AsmState)
    (h : drawSyntheticCards env count s = .ok (r, s2)) : s2.real = s.real := by
  unfold drawSyntheticCards at h
  split at h
  · injection h with h
    exact congrArg AsmState.real (Prod.mk.inj h).2.symm
  · dsimp only at h
    split at h
    · injection h with h
      exact (congrArg AsmState.real (Prod.mk.inj h).2.symm).trans rfl
    · exact (drawSyntheticAttempts_real env count _ _ _ _ _ h).trans rfl

theorem drawNanoBananaAttempts_real (env : Env) (count : Int) :
    ∀ (fuel : Nat) (result : List Card) (s : AsmState) (r : List Card) (s2 : AsmState),
      drawNanoBananaAttempts env count fuel result s = .ok (r, s2) → s2.real = s.real := by
  intro fuel
  induction fuel with
  | zero =>
    intro result s r s2 h
    unfold drawNanoBananaAttempts at h
    injection h with h
    exact congrArg AsmState.real (Prod.mk.inj h).2.symm
  | succ fuel ih =>
    intro result s r s2 h
    unfold drawNanoBananaAttempts at h
    split at h
    · split at h
      · exact Except.noConfusion h
      · dsimp only at h
        split at h
        all_goals split at h
        all_goals first
          | (injection h with h;
              exact (congrArg AsmState.real (Prod.mk.inj h).2.symm).trans rfl)
          | exact (ih _ _ _ _ h).trans rfl
    · injection h with h
      exact congrArg AsmState.real (Prod.mk.inj h).2.symm

theorem drawNanoBananaCards_real (env : Env) (count : Int) (s : AsmState)
    (r : List Card) (s2 : AsmState)
    (h : drawNanoBananaCards env count s = .ok (r, s2)) : s2.real = s.real := by
  unfold drawNanoBananaCards at h
  split at h
  · injection h with h
    exact congrArg AsmState.real (Prod.mk.inj h).2.symm
  · dsimp only at h
    split at h
    · injection h with h
      exact (congrArg AsmState.real (Prod.mk.inj h).2.symm).trans rfl
    · exact (drawNanoBananaAttempts_real env count _ _ _ _ _ h).trans rfl

theorem drawRapidataAttempts_real (env : Env) (datasetId : String) (count : Int) :
    ∀ (fuel : Nat) (result : List Card) (s : AsmState) (r : List Card) (s2 : AsmState),
      drawRapidataAttempts env datasetId count fuel result s = .ok (r, s2) →
        s2.real = s.real := by
  intro fuel
  induction fuel with
  | zero =>
    intro result s r s2 h
    unfold drawRapidataAttempts at h
    injection h with h
    exact congrArg AsmState.real (Prod.mk.inj h).2.symm
  | succ fuel ih =>
    intro result s r s2 h
    unfold drawRapidataAttempts at h
    split at h
    · split at h
      · exact Except.noConfusion h
      · dsimp only at h
        split at h
        all_goals split at h
        all_goals first
          | (injection h with h;
              exact (congrArg AsmState.real (Prod.mk.inj h).2.symm).trans rfl)
          | exact (ih _ _ _ _ h).trans rfl
    · injection h with h
      exact congrArg AsmState.real (Prod.mk.inj h).2.symm

theorem drawRapidataCards_real (env : Env) (count : Int) (s : AsmState)
    (r : List Card) (s2 : AsmState)
    (h : drawRapidataCards env count s = .ok (r, s2)) : s2.real = s.real := by
  unfold drawRapidataCards at h
  split at h
  · injection h with h
    exact congrArg AsmState.real (Prod.mk.inj h).2.symm
  · dsimp only at h
    split at h
    · injection h with h
      exact (congrArg AsmState.real (Prod.mk.inj h).2.symm).trans rfl
    · exact (drawRapidataAttempts_real env _ count _ _ _ _ _ h).trans rfl

/-- When every COCO fetch rejects and the real cache is empty, any positive
real draw propagates the fetch error. -/
theorem drawRealCards_error (env : Env) (count : Int) (s : AsmState) (e : String)
    (hc : ∀ k, env.oracle.coco k = .error e) (hq : s.real.queue = [])
    (h0 : 0 < count) :
    drawRealCards env count s = .error e := by
  unfold drawRealCards
  have hnot : ¬ count ≤ 0 := by omega
  rw [if_neg hnot]
  have hd0 : drawFromCache env.rng s.real count = ([], s.real) :=
    drawFromCache_none _ _ _ (Or.inr hq)
  simp only [hd0]
  have hnc : ¬ count ≤ ((([] : List Card).length : Int)) := by simpa using hnot
  rw [if_neg hnc]
  show drawRealAttempts env count MAX_FETCH_ATTEMPTS [] { s with real := s.real } = .error e
  unfold MAX_FETCH_ATTEMPTS
  unfold drawRealAttempts
  have hlt : ((([] : List Card).length : Int)) < count := by simpa using h0
  rw [if_pos hlt]
  rw [hc _]

/-! ## Claim theorems: failure semantics (C1, C2, C7) -/

theorem exceptBind_ok {ε α β : Type} (a : α) (f : α → Except ε β) :
    (Except.ok a >>= f) = f a := rfl

theorem exceptBind_error {ε α β : Type} (e : ε) (f : α → Except ε β) :
    ((Except.error e : Except ε α) >>= f) = Except.error e := rfl

theorem exceptPure_bind {ε α β : Type} (a : α) (f : α → Except ε β) :
    ((pure a : Except ε α) >>= f) = f a := rfl

theorem targets_pos (count : Nat) :
    0 < targetFakeOf (desiredOf count) ∧ 0 < targetRealOf (desiredOf count) ∧
    0 < desiredOf count ∧ 0 < targetCocoRealOf (targetRealOf (desiredOf count)) := by
  simp only [desiredOf, targetFakeOf, targetRealOf, targetCocoRealOf, ceil60]
  omega

set_option maxHeartbeats 2000000

theorem assembleCore_empty (env : Env) (count : Nat) (s : AsmState)
    (hny : YieldsNoCards env) (hce : CachesEmpty s) :
    ∃ s2, assembleCore env count s = .ok ([], s2) := by
  obtain ⟨hsy, hco, hna, hra, hof⟩ := hny
  obtain ⟨hfp, hrp, hdp, hcp⟩ := targets_pos count
  unfold assembleCore
  dsimp only
  obtain ⟨s1, h1, hce1⟩ := drawSyntheticCards_empty env _ s hsy hce
  rw [h1, exceptBind_ok]
  dsimp only
  obtain ⟨s2, h2, hce2⟩ := drawNanoBananaCards_empty env _ s1 hna hce1
  rw [h2, exceptBind_ok]
  dsimp only
  obtain ⟨s3, h3, hce3⟩ := drawRapidataCards_empty env _ s2 hra hce2
  rw [h3, exceptBind_ok]
  dsimp only
  obtain ⟨s4, h4, hce4⟩ := drawRealCards_empty env _ s3 hco hce3
  rw [h4, exceptBind_ok]
  dsimp only
  obtain ⟨s5, h5, hce5⟩ := drawOpenFakeRealCards_empty env _ s4 hof hce4
  rw [h5, exceptBind_ok]
  dsimp only
  simp only [List.nil_append, List.append_nil, List.length_nil, Nat.add_zero, Nat.zero_add]
  rw [if_pos hfp]
  simp only [Nat.sub_zero]
  have hmin1 : 0 < min (targetFakeOf (desiredOf count)) (desiredOf count) := lt_min hfp hdp
  rw [if_pos hmin1]
  obtain ⟨s6, h6, hce6⟩ := drawRapidataCards_empty env _ s5 hra hce5
  rw [h6, exceptBind_ok]
  dsimp only
  simp only [List.length_nil, Nat.sub_zero]
  rw [if_pos hfp]
  obtain ⟨s7, h7, hce7⟩ := drawNanoBananaCards_empty env _ s6 hna hce6
  rw [h7, exceptBind_ok, exceptPure_bind]
  dsimp only
  simp only [List.append_nil, List.length_nil, Nat.add_zero, Nat.sub_zero]
  rw [if_pos hfp]
  obtain ⟨s8, h8, hce8⟩ := drawSyntheticCards_empty env _ s7 hsy hce7
  rw [h8, exceptBind_ok, exceptPure_bind]
  dsimp only
  simp only [List.append_nil, List.length_nil, Nat.sub_zero]
  rw [if_pos hrp]
  have hmin2 : 0 < min (targetRealOf (desiredOf count)) (desiredOf count) := lt_min hrp hdp
  rw [if_pos hmin2]
  obtain ⟨s9, h9, hce9⟩ := drawOpenFakeRealCards_empty env _ s8 hof hce8
  rw [h9, exceptBind_ok]
  dsimp only
  simp only [List.length_nil, Nat.sub_zero]
  rw [if_pos hrp]
  obtain ⟨s10, h10, hce10⟩ := drawRealCards_empty env _ s9 hco hce9
  rw [h10, exceptBind_ok, exceptPure_bind]
  dsimp only
  simp only [List.append_nil, List.length_nil, Nat.sub_zero]
  rw [if_pos hdp]
  obtain ⟨s11, h11, hce11⟩ := drawRapidataCards_empty env _ s10 hra hce10
  rw [h11, exceptBind_ok, exceptPure_bind]
  dsimp only
  simp only [List.append_nil, List.length_nil, Nat.sub_zero]
  rw [if_pos hdp]
  obtain ⟨s12, h12, hce12⟩ := drawNanoBananaCards_empty env _ s11 hna hce11
  rw [h12, exceptBind_ok, exceptPure_bind]
  dsimp only
  simp only [List.append_nil, List.length_nil, Nat.sub_zero]
  rw [if_pos hdp]
  obtain ⟨s13, h13, hce13⟩ := drawSyntheticCards_empty env _ s12 hsy hce12
  rw [h13, exceptBind_ok, exceptPure_bind]
  dsimp only
  simp only [List.append_nil, List.length_nil, Nat.sub_zero]
  rw [if_pos hdp]
  obtain ⟨s14, h14, hce14⟩ := drawOpenFakeRealCards_empty env _ s13 hof hce13
  rw [h14, exceptBind_ok, exceptPure_bind]
  dsimp only
  simp only [List.append_nil, List.length_nil, Nat.sub_zero]
  rw [if_pos hdp]
  obtain ⟨s15, h15, hce15⟩ := drawRealCards_empty env _ s14 hco hce14
  rw [h15, exceptBind_ok, exceptPure_bind]
  dsimp only
  simp only [List.append_nil]
  exact ⟨s15, rfl⟩

theorem assembleCore_real_error (env : Env) (count : Nat) (s : AsmState) (e : String)
    (hc : ∀ k, env.oracle.coco k = .error e) (hq : s.real.queue = []) :
    ∃ msg, assembleCore env count s = .error msg := by
  obtain ⟨hfp, hrp, hdp, hcp⟩ := targets_pos count
  unfold assembleCore
  dsimp only
  cases h1 : drawSyntheticCards env (targetOpenFakeOf (targetFakeOf (desiredOf count))) s with
  | error e1 => exact ⟨e1, by rw [exceptBind_error]⟩
  | ok p1 =>
    obtain ⟨r1, s1⟩ := p1
    rw [exceptBind_ok]
    dsimp only
    have hq1 : s1.real.queue = [] := by
      rw [drawSyntheticCards_real env _ s r1 s1 h1]
      exact hq
    cases h2 : drawNanoBananaCards env (targetNanoBananaOf (targetFakeOf (desiredOf count))) s1 with
    | error e2 => exact ⟨e2, by rw [exceptBind_error]⟩
    | ok p2 =>
      obtain ⟨r2, s2⟩ := p2
      rw [exceptBind_ok]
      dsimp only
      have hq2 : s2.real.queue = [] := by
        rw [drawNanoBananaCards_real env _ s1 r2 s2 h2]
        exact hq1
      cases h3 : drawRapidataCards env (targetRapidataOf (targetFakeOf (desiredOf count))) s2 with
      | error e3 => exact ⟨e3, by rw [exceptBind_error]⟩
      | ok p3 =>
        obtain ⟨r3, s3⟩ := p3
        rw [exceptBind_ok]
        dsimp only
        have hq3 : s3.real.queue = [] := by
          rw [drawRapidataCards_real env _ s2 r3 s3 h3]
          exact hq2
        have h4 : drawRealCards env (targetCocoRealOf (targetRealOf (desiredOf count))) s3
            = .error e :=
          drawRealCards_error env _ s3 e hc hq3 (by exact_mod_cast hcp)
        exact ⟨e, by rw [h4, exceptBind_error]⟩

theorem assemble_ok_nonempty (env : Env) (count : Nat) (s : AsmState)
    (pool : List Card) (s2 : AsmState)
    (h : assembleOpenFakeDeck env count s = .ok (pool, s2)) : pool ≠ [] := by
  unfold assembleOpenFakeDeck at h
  cases hcore : assembleCore env count s with
  | error e =>
    rw [hcore] at h
    simp [Except.bind] at h
  | ok p =>
    obtain ⟨comb, s3⟩ := p
    rw [hcore] at h
    have h2 : finishAssemble env count (comb, s3) = .ok (pool, s2) := h
    clear h
    unfold finishAssemble at h2
    dsimp only at h2
    by_cases hlen : comb.length = 0
    · rw [if_pos hlen] at h2
      exact Except.noConfusion h2
    · rw [if_neg hlen] at h2
      by_cases hlt : comb.length < desiredOf count
      · rw [if_pos hlt] at h2
        cases hdr : drawSyntheticCards env (desiredOf count - comb.length : Nat) s3 with
        | error e2 =>
          rw [hdr] at h2
          exact Except.noConfusion h2
        | ok pp =>
          obtain ⟨tt, s4⟩ := pp
          rw [hdr] at h2
          injection h2 with h2
          have hp := (Prod.mk.inj h2).1
          intro hnil
          rw [hnil] at hp
          have hc0 := List.append_eq_nil.mp hp
          exact hlen (by rw [hc0.1]; rfl)
      · rw [if_neg hlt] at h2
        injection h2 with h2
        have hp := (Prod.mk.inj h2).1
        intro hnil
        rw [hnil] at hp
        exact hlen (by rw [hp]; rfl)

/-- Claim C1 (corrected): the claim as stated is false — `drawRealCards` and
`fetchOpenFakeDeck` contain no `try/catch`, so a thrown row-fetch error
(timeout or non-2xx) of the real source is NOT absorbed: it propagates out of
the `Promise.all` and the whole call rejects instead of returning the partial
fake-only deck.  Amended: whenever every COCO fetch rejects and the real
cache is empty (so a real fetch is actually attempted — the real sub-target
is always positive), `fetchOpenFakeDeck` returns no deck at all: the call
fails with some propagated error, regardless of how well the fake sources do. -/
theorem claim_C1 (env : Env) (count : Nat) (s : AsmState) (e : String)
    (hc : ∀ k, env.oracle.coco k = .error e) (hq : s.real.queue = []) :
    (fetchOpenFakeDeck env count s).toOption = none := by
  obtain ⟨msg, hmsg⟩ := assembleCore_real_error env count s e hc hq
  unfold fetchOpenFakeDeck assembleOpenFakeDeck
  rw [hmsg]
  rfl

/-- The spec's scenario, refuted: with the three fake sources succeeding with
plenty of valid rows and every real (COCO) fetch failing, the
`fetchDeck({count: 24})` call rejects with the fetch error instead of
returning a 12-card fake-only deck. -/
theorem claim_C1_counterexample :
    errMsgOf (fetchOpenFakeDeck envRealDown 24 initState)
      = some "Failed to fetch real rows: 500" := by decide

theorem claim_C1_witness :
    (fetchOpenFakeDeck envRealDown 8 initState).toOption = none :=
  claim_C1 envRealDown 8 initState "Failed to fetch real rows: 500"
    (fun _ => rfl) rfl

/-- Claim C2 (confirmed): every successful `fetchOpenFakeDeck({count: N})`
returns a deck of at most `max(N, 8)` cards, and a successful return is never
the empty deck (the empty-pool check throws first, and later steps only add
cards) — in particular the deck is non-empty whenever the call returns at
all; and when every source yields zero valid cards across all attempts (each
fetch answers, but no row survives validation) from a fresh state, the call
fails with the `NoImagesAvailable` error rather than returning an empty
deck. -/
theorem claim_C2 :
    (∀ (env : Env) (count : Nat) (s : AsmState),
      match fetchOpenFakeDeck env count s with
      | .ok (d, _) => d.length ≤ max count 8 ∧ d ≠ []
      | .error _ => True) ∧
    (∀ (env : Env) (count : Nat) (s : AsmState), YieldsNoCards env → CachesEmpty s →
      fetchOpenFakeDeck env count s = .error noImagesMsg) := by
  constructor
  · intro env count s
    cases h : assembleOpenFakeDeck env count s with
    | error e =>
      have hf : fetchOpenFakeDeck env count s = .error e := by
        unfold fetchOpenFakeDeck
        rw [h]
        rfl
      rw [hf]
      trivial
    | ok p =>
      obtain ⟨pool, s2⟩ := p
      have hne : pool ≠ [] := assemble_ok_nonempty env count s pool s2 h
      have hf : fetchOpenFakeDeck env count s =
          .ok ((shuffle env.rng.js pool).take (desiredOf count), s2) := by
        unfold fetchOpenFakeDeck
        rw [h]
        rfl
      rw [hf]
      refine ⟨?_, ?_⟩
      · have hle : ((shuffle env.rng.js pool).take (desiredOf count)).length
            ≤ desiredOf count := by
          rw [List.length_take]
          omega
        have : desiredOf count = max count 8 := by
          unfold desiredOf
          omega
        omega
      · have hlen : 0 < pool.length := List.length_pos.mpr hne
        have hslen : 0 < (shuffle env.rng.js pool).length := by
          rw [(shuffle_perm env.rng.js pool).length_eq]
          exact hlen
        have hdp : 0 < desiredOf count := by
          unfold desiredOf
          omega
        have hpos : 0 < ((shuffle env.rng.js pool).take (desiredOf count)).length := by
          rw [List.length_take]
          omega
        exact List.length_pos.mp hpos
  · intro env count s hny hce
    obtain ⟨s2, hok⟩ := assembleCore_empty env count s hny hce
    unfold fetchOpenFakeDeck assembleOpenFakeDeck
    rw [hok]
    rfl

theorem claim_C2_witness : fetchOpenFakeDeck envNone 24 initState = .error noImagesMsg :=
  claim_C2.2 envNone 24 initState
    ⟨fun _ => rfl, fun _ => rfl, fun _ => rfl, fun _ _ => rfl, fun _ => rfl⟩
    ⟨rfl, rfl, rfl, rfl, rfl⟩

/-- Claim C7 counterexample: when nothing can be fetched, `fetchQuickDeck`
returns the empty deck successfully — it does NOT fail with
`NoImagesAvailable`, so it does not obey `fetchOpenFakeDeck`'s failure
contract. -/
theorem claim_C7_counterexample :
    deckOf (fetchQuickDeck envNone 4 initState) = some [] := by decide

/-- Claim C7 (corrected): the claim as stated is false — `fetchQuickDeck` has
no empty-pool check, so when nothing could be fetched it returns an empty
deck instead of failing with `NoImagesAvailable`.  Amended: a successful
`fetchQuickDeck(count)` returns at most `count` cards, and when every source
yields zero valid cards from a fresh state it succeeds with the empty deck
(no error). -/
theorem claim_C7 :
    (∀ (env : Env) (count : Nat) (s : AsmState),
      match fetchQuickDeck env count s with
      | .ok (d, _) => d.length ≤ count
      | .error _ => True) ∧
    (∀ (env : Env) (count : Nat) (s : AsmState), YieldsNoCards env → CachesEmpty s →
      (fetchQuickDeck env count s).toOption.map Prod.fst = some []) := by
  constructor
  · intro env count s
    unfold fetchQuickDeck
    dsimp only
    cases h1 : drawSyntheticCards env (((count + 1) / 2 : Nat)) s with
    | error e => simp only [exceptBind_error]
    | ok p1 =>
      obtain ⟨a, s1⟩ := p1
      simp only [exceptBind_ok]
      cases h2 : drawRealCards env ((count - (count + 1) / 2 : Nat)) s1 with
      | error e => simp only [exceptBind_error]
      | ok p2 =>
        obtain ⟨b, s2⟩ := p2
        simp only [exceptBind_ok]
        show ((shuffle env.rng.js (a ++ b)).take count).length ≤ count
        rw [List.length_take]
        omega
  · intro env count s hny hce
    obtain ⟨s1, h1, hce1⟩ := drawSyntheticCards_empty env _ s hny.1 hce
    obtain ⟨s2, h2, hce2⟩ := drawRealCards_empty env _ s1 hny.2.1 hce1
    unfold fetchQuickDeck
    dsimp only
    rw [h1, exceptBind_ok]
    dsimp only
    rw [h2, exceptBind_ok]
    simp [shuffle, shuffleGo, pure, Except.pure]
    exact ⟨s2, rfl⟩

theorem claim_C7_witness :
    (fetchQuickDeck envNone 6 initState).toOption.map Prod.fst = some [] :=
  claim_C7.2 envNone 6 initState
    ⟨fun _ => rfl, fun _ => rfl, fun _ => rfl, fun _ _ => rfl, fun _ => rfl⟩
    ⟨rfl, rfl, rfl, rfl, rfl⟩

end HotOrSlop
